import Mathlib

/-!
# LIMO-Velo control loop (`src/main.cpp`): a trace model

`main.cpp` is a driver: it loads parameters, constructs the engine objects and
then runs the control loop.  The engine objects themselves (`Accumulator`,
`Compensator`, `Localizator`, `Mapper`, `Publishers`) are declared in headers
that are not part of the sources, so every call on them is taken from an
`Engine` record of operations over an arbitrary engine state `σ`.

The driver is embedded as a function that threads the engine state through
the calls in source order and records every call, with its arguments and the
value it returned, in a log.  Times (`double` in the source) are rationals.
`cycle` subtracts them exactly; `cycleD` is the same pass with every
subtraction rounded to the nearest binary64 value, for the property that is
about the arithmetic of the window itself.
-/

namespace LimoVelo

/-! ## Configuration -/

/-- The global `Params Config` as far as `main` touches it. -/
structure Params where
  delta : ℚ
  rate : Int
  ds_rate : Int
  MAX_NUM_ITERS : Int
  min_dist : ℚ
  full_rotation_time : ℚ
  empty_lidar_time : ℚ
  real_time_delay : ℚ
  points_topic : String
  imus_topic : String
deriving DecidableEq

/-- The parameter server: every key is either configured or absent. -/
structure ParamServer where
  delta : Option ℚ
  rate : Option Int
  ds_rate : Option Int
  MAX_NUM_ITERS : Option Int
  min_dist : Option ℚ
  full_rotation_time : Option ℚ
  empty_lidar_time : Option ℚ
  real_time_delay : Option ℚ
  points_topic : Option String
  imus_topic : Option String
  mapping_online : Option Bool

/-- A server on which nothing is configured. -/
def ParamServer.empty : ParamServer :=
  ⟨none, none, none, none, none, none, none, none, none, none, none⟩

/-- The call `nh.param<T>(key, var, default_val)`: the configured value, else the default. -/
def param {α : Type} (configured : Option α) (default_val : α) : α :=
  match configured with
  | some v => v
  | none => default_val

/-- Largest value of a 32-bit `int`. -/
def INT_MAX : Int := 2147483647

/-- Smallest value of a 32-bit `int`. -/
def INT_MIN : Int := -2147483648

/-- Conversion of a `double` to `int`: the fractional part is discarded
(truncation toward zero); the behaviour is undefined (`none`) when the
truncated value does not fit an `int`. -/
def toInt (q : ℚ) : Option Int :=
  let z : Int := if 0 ≤ q then Int.floor q else Int.ceil q
  if INT_MIN ≤ z ∧ z ≤ INT_MAX then some z else none

/-- The default argument `(int) 1./Config.delta` of the `rate` parameter: the
cast binds to the literal `1.` only, the quotient is a `double` and is
converted to `int` when bound to the `const int&` default.  A zero `delta`
makes the quotient infinite, which no `int` holds. -/
def defaultRate (delta : ℚ) : Option Int :=
  if delta = 0 then none else toInt (((1 : Int) : ℚ) / delta)

/-- Lines 20-32 of `main`: the parameters are read in source order, so the
default of `rate` is computed from the `delta` that was just loaded.  The
default argument is evaluated whether or not `rate` is configured. -/
def loadParams (ps : ParamServer) : Option (Params × Bool) :=
  let delta := param ps.delta (1 / 40)
  match defaultRate delta with
  | none => none
  | some d =>
    some
      ({ delta := delta
         rate := param ps.rate d
         ds_rate := param ps.ds_rate 4
         MAX_NUM_ITERS := param ps.MAX_NUM_ITERS 3
         min_dist := param ps.min_dist 3
         full_rotation_time := param ps.full_rotation_time (1 / 10)
         empty_lidar_time := param ps.empty_lidar_time 20
         real_time_delay := param ps.real_time_delay 1
         points_topic := param ps.points_topic "/velodyne_points"
         imus_topic := param ps.imus_topic "/vectornav/IMU" },
       param ps.mapping_online true)

/-! ## Calls and logs -/

/-- One call made by `main`, with its arguments and the value it returned.
`P` = `Points`, `S` = `States`, `C` = `PointCloud`, `X` = `State`,
`R` = `ros::Rate`. -/
inductive Ev (P S C X R : Type) where
  | Publishers_new
  | Accumulator_getInstance
  | Compensator_new (delta : ℚ)
  | Mapper_getInstance
  | Localizator_getInstance
  | subscribe_lidar (topic : String)
  | subscribe_imu (topic : String)
  | Rate_new (rate : Int) (ret : R)
  | ok (ret : Bool)
  | ready (ret : Bool)
  | BUFFER_I_front (time : Option ℚ)
  | refine_delta (t2 : ℚ) (ret : R)
  | map_exists (ret : Bool)
  | propagate_to (t2 : ℚ)
  | get_points (t1 t2 : ℚ) (ret : P)
  | integrate_imus (t1 t2 : ℚ) (ret : S)
  | compensate (path : S) (points : P) (ret : C)
  | update (cloud : C)
  | latest_state (ret : X)
  | BUFFER_X_push (x : X)
  | publish_state (x : X) (flag : Bool)
  | publish_pointcloud (cloud : C)
  | map_add (cloud : C) (t : ℚ) (is_batch : Bool)
  | publish_full_pointcloud (cloud : C)
  | hasToMap (t2 : ℚ) (ret : Bool)
  | compensate_window (t1 t2 : ℚ) (ret : C)
  | empty_lidar (t : ℚ)
  | spinOnce
  | sleep (rate : R)
deriving DecidableEq

/-- The name of a call, without arguments. -/
inductive Op where
  | Publishers_new | Accumulator_getInstance | Compensator_new | Mapper_getInstance
  | Localizator_getInstance | subscribe_lidar | subscribe_imu | Rate_new
  | ok | ready | BUFFER_I_front | refine_delta | map_exists | propagate_to
  | get_points | integrate_imus | compensate | update | latest_state
  | BUFFER_X_push | publish_state | publish_pointcloud | map_add
  | publish_full_pointcloud | hasToMap | compensate_window | empty_lidar
  | spinOnce | sleep
deriving DecidableEq

section
variable {σ P S C X T G R : Type}

/-- The name of the call an event records. -/
def Ev.op : Ev P S C X R → Op
  | .Publishers_new => .Publishers_new
  | .Accumulator_getInstance => .Accumulator_getInstance
  | .Compensator_new _ => .Compensator_new
  | .Mapper_getInstance => .Mapper_getInstance
  | .Localizator_getInstance => .Localizator_getInstance
  | .subscribe_lidar _ => .subscribe_lidar
  | .subscribe_imu _ => .subscribe_imu
  | .Rate_new _ _ => .Rate_new
  | .ok _ => .ok
  | .ready _ => .ready
  | .BUFFER_I_front _ => .BUFFER_I_front
  | .refine_delta _ _ => .refine_delta
  | .map_exists _ => .map_exists
  | .propagate_to _ => .propagate_to
  | .get_points _ _ _ => .get_points
  | .integrate_imus _ _ _ => .integrate_imus
  | .compensate _ _ _ => .compensate
  | .update _ => .update
  | .latest_state _ => .latest_state
  | .BUFFER_X_push _ => .BUFFER_X_push
  | .publish_state _ _ => .publish_state
  | .publish_pointcloud _ => .publish_pointcloud
  | .map_add _ _ _ => .map_add
  | .publish_full_pointcloud _ => .publish_full_pointcloud
  | .hasToMap _ _ => .hasToMap
  | .compensate_window _ _ _ => .compensate_window
  | .empty_lidar _ => .empty_lidar
  | .spinOnce => .spinOnce
  | .sleep _ => .sleep

/-- Calls that `main` makes on the inertial buffer `accum.BUFFER_I` itself. -/
def Ev.onBufferI : Ev P S C X R → Bool
  | .BUFFER_I_front _ => true
  | _ => false

/-- The flag of a `publish.state` call. -/
def Ev.stateFlag : Ev P S C X R → Option Bool
  | .publish_state _ flag => some flag
  | _ => none

/-- The flags of the `publish.state` calls of a log, in order. -/
def publishedFlags (log : List (Ev P S C X R)) : List Bool :=
  log.filterMap Ev.stateFlag

/-- Engine calls proper: everything except `ros::ok`, `accum.ready`,
`ros::spinOnce` and `rate.sleep`. -/
def Ev.isEngineCall : Ev P S C X R → Bool
  | .ok _ => false
  | .ready _ => false
  | .spinOnce => false
  | .sleep _ => false
  | _ => true

/-! ## The engine -/

/-- The operations `main` calls on objects whose code is not in `main.cpp`.
A call that may change the engine returns the new engine state.
`latest_state`, the field read `accum.delta`, `I_Rt_L` and the two products
are reads of a value.  `BUFFER_I_front` is `none` on an empty buffer, where
`front()` is undefined. -/
structure Engine (σ P S C X T G R : Type) where
  Publishers_new : σ → σ
  Accumulator_getInstance : σ → σ
  Compensator_new : ℚ → σ → σ
  Mapper_getInstance : σ → σ
  Localizator_getInstance : σ → σ
  subscribe_lidar : String → σ → σ
  subscribe_imu : String → σ → σ
  Rate_new : Int → R
  ok : σ → Bool × σ
  ready : σ → Bool × σ
  BUFFER_I_front : σ → Option ℚ
  refine_delta : ℚ → σ → R × σ
  delta : σ → ℚ
  map_exists : σ → Bool × σ
  propagate_to : ℚ → σ → σ
  get_points : ℚ → ℚ → σ → P × σ
  integrate_imus : ℚ → ℚ → σ → S × σ
  compensate : S → P → σ → C × σ
  update : C → σ → σ
  latest_state : σ → X
  BUFFER_X_push : X → σ → σ
  publish_state : X → Bool → σ → σ
  I_Rt_L : X → T
  mulXT : X → T → G
  mulGC : G → C → C
  publish_pointcloud : C → σ → σ
  map_add : C → ℚ → Bool → σ → σ
  publish_full_pointcloud : C → σ → σ
  hasToMap : ℚ → σ → Bool × σ
  compensate_window : ℚ → ℚ → σ → C × σ
  empty_lidar : ℚ → σ → σ
  spinOnce : σ → σ
  sleep : R → σ → σ

/-- The expression `X * X.I_Rt_L() * cloud` (lines 82 and 95), which
associates to the left. -/
def Engine.globalize (E : Engine σ P S C X T G R) (x : X) (cloud : C) : C :=
  E.mulGC (E.mulXT x (E.I_Rt_L x)) cloud

/-- An engine state together with the calls made so far. -/
structure Run (σ P S C X R : Type) where
  st : σ
  log : List (Ev P S C X R)

/-- Lines 66-90, entered with the gate already decided. -/
def updatePath (E : Engine σ P S C X T G R) (mapping_online : Bool) (t1 t2 : ℚ) (s : σ) :
    Run σ P S C X R :=
  let s1 := E.propagate_to t2 s
  let points := E.get_points t1 t2 s1
  let path_taken := E.integrate_imus t1 t2 points.2
  let compensated := E.compensate path_taken.1 points.1 path_taken.2
  let s5 := E.update compensated.1 compensated.2
  let Xt2 := E.latest_state s5
  let s6 := E.BUFFER_X_push Xt2 s5
  let s7 := E.publish_state Xt2 false s6
  let global_compensated := E.globalize Xt2 compensated.1
  let s8 := E.publish_pointcloud global_compensated s7
  let log : List (Ev P S C X R) :=
    [.propagate_to t2, .get_points t1 t2 points.1, .integrate_imus t1 t2 path_taken.1,
     .compensate path_taken.1 points.1 compensated.1, .update compensated.1,
     .latest_state Xt2, .BUFFER_X_push Xt2, .publish_state Xt2 false,
     .publish_pointcloud global_compensated]
  if mapping_online then
    let s9 := E.map_add global_compensated t2 false s8
    let s10 := E.publish_full_pointcloud global_compensated s9
    ⟨s10, log ++ [.map_add global_compensated t2 false,
      .publish_full_pointcloud global_compensated]⟩
  else
    ⟨s8, log⟩

/-- Line 66 with its block: `mapping_online or (not mapping_online and
map.exists())`; `map.exists()` is only called when `mapping_online` is false. -/
def gatedUpdate (E : Engine σ P S C X T G R) (mapping_online : Bool) (t1 t2 : ℚ) (s : σ) :
    Run σ P S C X R :=
  if mapping_online then
    updatePath E mapping_online t1 t2 s
  else
    let ex := E.map_exists s
    if ex.1 then
      let r := updatePath E mapping_online t1 t2 ex.2
      ⟨r.st, .map_exists true :: r.log⟩
    else
      ⟨ex.2, [.map_exists false]⟩

/-- Lines 92-99: `not mapping_online and map.hasToMap(t2)`; `hasToMap` is only
called when `mapping_online` is false. -/
def offlineMap (E : Engine σ P S C X T G R) (cfg : Params) (mapping_online : Bool) (t2 : ℚ)
    (s : σ) : Run σ P S C X R :=
  if mapping_online then
    ⟨s, []⟩
  else
    let h := E.hasToMap t2 s
    if h.1 then
      let full_compensated := E.compensate_window (t2 - cfg.full_rotation_time) t2 h.2
      let x := E.latest_state full_compensated.2
      let global_full_compensated := E.globalize x full_compensated.1
      let s3 := E.map_add global_full_compensated t2 true full_compensated.2
      let s4 := E.publish_full_pointcloud global_full_compensated s3
      ⟨s4, [.hasToMap t2 true,
        .compensate_window (t2 - cfg.full_rotation_time) t2 full_compensated.1,
        .latest_state x, .latest_state x,
        .map_add global_full_compensated t2 true,
        .publish_full_pointcloud global_full_compensated]⟩
    else
      ⟨h.2, [.hasToMap t2 false]⟩

/-- What one pass through the loop body leaves behind: the engine state, the
current `rate` object, the calls made, and whether the pass read the front of
an empty `BUFFER_I` (after which nothing is modelled). -/
structure CycleOut (σ P S C X R : Type) where
  st : σ
  rate : R
  log : List (Ev P S C X R)
  ub : Bool

/-- Lines 56-106: one pass through the body of `while (ros::ok())`. -/
def cycle (E : Engine σ P S C X T G R) (cfg : Params) (mapping_online : Bool) (rate : R)
    (s : σ) : CycleOut σ P S C X R :=
  let rd := E.ready s
  if rd.1 then
    match E.BUFFER_I_front rd.2 with
    | none => ⟨rd.2, rate, [.ready true, .BUFFER_I_front none], true⟩
    | some latest_imu_time =>
      let t2 := latest_imu_time - cfg.real_time_delay
      let rf := E.refine_delta t2 rd.2
      let t1 := t2 - E.delta rf.2
      let u := gatedUpdate E mapping_online t1 t2 rf.2
      let m := offlineMap E cfg mapping_online t2 u.st
      let s3 := E.empty_lidar (t2 - cfg.empty_lidar_time) m.st
      let s4 := E.spinOnce s3
      let s5 := E.sleep rf.1 s4
      ⟨s5, rf.1,
        [.ready true, .BUFFER_I_front (some latest_imu_time), .refine_delta t2 rf.1]
          ++ u.log ++ m.log
          ++ [.empty_lidar (t2 - cfg.empty_lidar_time), .spinOnce, .sleep rf.1],
        false⟩
  else
    let s1 := E.spinOnce rd.2
    let s2 := E.sleep rate s1
    ⟨s2, rate, [.ready false, .spinOnce, .sleep rate], false⟩

/-- What a run of `main` leaves behind. -/
structure MainOut (σ P S C X R : Type) where
  st : σ
  log : List (Ev P S C X R)
  ub : Bool

/-- Lines 54-107: the loop, observed for at most `fuel` passes. -/
def loop (E : Engine σ P S C X T G R) (cfg : Params) (mapping_online : Bool) :
    Nat → R → σ → MainOut σ P S C X R
  | 0, _, s => ⟨s, [], false⟩
  | fuel + 1, rate, s =>
    let o := E.ok s
    if o.1 then
      let c := cycle E cfg mapping_online rate o.2
      if c.ub then
        ⟨c.st, .ok true :: c.log, true⟩
      else
        let r := loop E cfg mapping_online fuel c.rate c.st
        ⟨r.st, .ok true :: (c.log ++ r.log), r.ub⟩
    else
      ⟨o.2, [.ok false], false⟩

/-- Lines 34-50: construction of the objects and the two subscriptions. -/
def startup (E : Engine σ P S C X T G R) (cfg : Params) (s : σ) : Run σ P S C X R :=
  let s1 := E.Publishers_new s
  let s2 := E.Accumulator_getInstance s1
  let s3 := E.Compensator_new cfg.delta s2
  let s4 := E.Mapper_getInstance s3
  let s5 := E.Localizator_getInstance s4
  let s6 := E.subscribe_lidar cfg.points_topic s5
  let s7 := E.subscribe_imu cfg.imus_topic s6
  ⟨s7, [.Publishers_new, .Accumulator_getInstance, .Compensator_new cfg.delta,
    .Mapper_getInstance, .Localizator_getInstance, .subscribe_lidar cfg.points_topic,
    .subscribe_imu cfg.imus_topic]⟩

/-- The function `main`, observed for at most `fuel` passes of its loop. -/
def main (E : Engine σ P S C X T G R) (ps : ParamServer) (fuel : Nat) (s : σ) :
    MainOut σ P S C X R :=
  match loadParams ps with
  | none => ⟨s, [], true⟩
  | some (cfg, mapping_online) =>
    let b := startup E cfg s
    let rate := E.Rate_new cfg.rate
    let r := loop E cfg mapping_online fuel rate b.st
    ⟨r.st, b.log ++ .Rate_new cfg.rate rate :: r.log, r.ub⟩

/-! ## Double-precision subtraction -/

/-- Floor of the base-2 logarithm of a natural number, by halving; `fuel`
bounds the number of halvings. -/
def log2Fuel : Nat → Nat → Nat
  | 0, _ => 0
  | fuel + 1, n => if 2 ≤ n then log2Fuel fuel (n / 2) + 1 else 0

/-- Ceiling of the base-2 logarithm of a natural number, by halving upward. -/
def clog2Fuel : Nat → Nat → Nat
  | 0, _ => 0
  | fuel + 1, n => if 2 ≤ n then clog2Fuel fuel ((n + 1) / 2) + 1 else 0

/-- Floor of the base-2 logarithm of a positive rational: the binary exponent
of its leading bit. -/
def floorLog2 (r : ℚ) : Int :=
  if 1 ≤ r then (log2Fuel ⌊r⌋₊ ⌊r⌋₊ : Int) else -(clog2Fuel ⌈r⁻¹⌉₊ ⌈r⁻¹⌉₊ : Int)

/-- Rounding to the nearest integer, ties to the even one. -/
def roundHalfEven (r : ℚ) : Int :=
  let f := Int.floor r
  if r - f < 1 / 2 then f
  else if 1 / 2 < r - f then f + 1
  else if f % 2 = 0 then f else f + 1

/-- Exponent of the unit in the last place of a binary64 number of magnitude
`q`: 53 significant bits, and the subnormal spacing `2^-1074` below `2^-1022`. -/
def ulpExp (q : ℚ) : Int := max (floorLog2 q) (-1022) - 52

/-- Rounding of a non-negative rational to the binary64 grid, to nearest, ties
to even. -/
def roundMag (q : ℚ) : ℚ := roundHalfEven (q / 2 ^ ulpExp q) * 2 ^ ulpExp q

/-- Rounding of a rational to binary64 (sign and magnitude, round to nearest,
ties to even).  Overflow to infinity is not modelled: the exponent is unbounded
above. -/
def roundDouble (q : ℚ) : ℚ := if 0 ≤ q then roundMag q else -roundMag (-q)

/-- The `double` subtraction `a - b`: the exact difference, rounded. -/
def dsub (a b : ℚ) : ℚ := roundDouble (a - b)

/-- Lines 92-99 as in `offlineMap`, with the subtraction of line 94 in
`double`. -/
def offlineMapD (E : Engine σ P S C X T G R) (cfg : Params) (mapping_online : Bool) (t2 : ℚ)
    (s : σ) : Run σ P S C X R :=
  if mapping_online then
    ⟨s, []⟩
  else
    let h := E.hasToMap t2 s
    if h.1 then
      let full_compensated := E.compensate_window (dsub t2 cfg.full_rotation_time) t2 h.2
      let x := E.latest_state full_compensated.2
      let global_full_compensated := E.globalize x full_compensated.1
      let s3 := E.map_add global_full_compensated t2 true full_compensated.2
      let s4 := E.publish_full_pointcloud global_full_compensated s3
      ⟨s4, [.hasToMap t2 true,
        .compensate_window (dsub t2 cfg.full_rotation_time) t2 full_compensated.1,
        .latest_state x, .latest_state x,
        .map_add global_full_compensated t2 true,
        .publish_full_pointcloud global_full_compensated]⟩
    else
      ⟨h.2, [.hasToMap t2 false]⟩

/-- Lines 56-106 as in `cycle`, with the four subtractions (lines 60, 64, 94
and 102) in `double`. -/
def cycleD (E : Engine σ P S C X T G R) (cfg : Params) (mapping_online : Bool) (rate : R)
    (s : σ) : CycleOut σ P S C X R :=
  let rd := E.ready s
  if rd.1 then
    match E.BUFFER_I_front rd.2 with
    | none => ⟨rd.2, rate, [.ready true, .BUFFER_I_front none], true⟩
    | some latest_imu_time =>
      let t2 := dsub latest_imu_time cfg.real_time_delay
      let rf := E.refine_delta t2 rd.2
      let t1 := dsub t2 (E.delta rf.2)
      let u := gatedUpdate E mapping_online t1 t2 rf.2
      let m := offlineMapD E cfg mapping_online t2 u.st
      let s3 := E.empty_lidar (dsub t2 cfg.empty_lidar_time) m.st
      let s4 := E.spinOnce s3
      let s5 := E.sleep rf.1 s4
      ⟨s5, rf.1,
        [.ready true, .BUFFER_I_front (some latest_imu_time), .refine_delta t2 rf.1]
          ++ u.log ++ m.log
          ++ [.empty_lidar (dsub t2 cfg.empty_lidar_time), .spinOnce, .sleep rf.1],
        false⟩
  else
    let s1 := E.spinOnce rd.2
    let s2 := E.sleep rate s1
    ⟨s2, rate, [.ready false, .spinOnce, .sleep rate], false⟩

/-- The calls of lines 68-83 on given values, in source order. -/
def frameLog (E : Engine σ P S C X T G R) (t1 t2 : ℚ) (points : P) (path_taken : S)
    (compensated : C) (Xt2 : X) : List (Ev P S C X R) :=
  [.propagate_to t2, .get_points t1 t2 points, .integrate_imus t1 t2 path_taken,
   .compensate path_taken points compensated, .update compensated,
   .latest_state Xt2, .BUFFER_X_push Xt2, .publish_state Xt2 false,
   .publish_pointcloud (E.globalize Xt2 compensated)]

/-- The calls of lines 87-88 on given values. -/
def frameMapLog (E : Engine σ P S C X T G R) (t2 : ℚ) (compensated : C) (Xt2 : X) :
    List (Ev P S C X R) :=
  [.map_add (E.globalize Xt2 compensated) t2 false,
   .publish_full_pointcloud (E.globalize Xt2 compensated)]

/-- The calls of lines 93-98 on given values, when `hasToMap` answered true. -/
def batchLog (E : Engine σ P S C X T G R) (cfg : Params) (t2 : ℚ) (full_compensated : C)
    (x : X) : List (Ev P S C X R) :=
  [.hasToMap t2 true, .compensate_window (t2 - cfg.full_rotation_time) t2 full_compensated,
   .latest_state x, .latest_state x,
   .map_add (E.globalize x full_compensated) t2 true,
   .publish_full_pointcloud (E.globalize x full_compensated)]

/-- The calls that close a ready pass: line 102 and lines 105-106. -/
def closeLog (cfg : Params) (t2 : ℚ) (rate : R) : List (Ev P S C X R) :=
  [.empty_lidar (t2 - cfg.empty_lidar_time), .spinOnce, .sleep rate]

/-- The calls that open a ready pass: lines 56-63. -/
def openLog (t t2 : ℚ) (rate : R) : List (Ev P S C X R) :=
  [.ready true, .BUFFER_I_front (some t), .refine_delta t2 rate]

/-- The shapes a pass can take. -/
inductive Shape (E : Engine σ P S C X T G R) (cfg : Params) (mapping_online : Bool) (rate : R)
    (s : σ) : Prop where
  | notReady (hr : (E.ready s).1 = false)
      (hlog : (cycle E cfg mapping_online rate s).log = [.ready false, .spinOnce, .sleep rate])
      (hub : (cycle E cfg mapping_online rate s).ub = false)
  | frontEmpty (hr : (E.ready s).1 = true) (hf : E.BUFFER_I_front (E.ready s).2 = none)
      (hlog : (cycle E cfg mapping_online rate s).log = [.ready true, .BUFFER_I_front none])
      (hub : (cycle E cfg mapping_online rate s).ub = true)
  | online (t : ℚ) (r : R) (d : ℚ) (points : P) (path_taken : S) (compensated : C) (Xt2 : X)
      (s4 : σ) (hon : mapping_online = true)
      (hr : (E.ready s).1 = true) (hf : E.BUFFER_I_front (E.ready s).2 = some t)
      (hrate : (E.refine_delta (t - cfg.real_time_delay) (E.ready s).2).1 = r)
      (hd : E.delta (E.refine_delta (t - cfg.real_time_delay) (E.ready s).2).2 = d)
      (hx : E.latest_state (E.update compensated (E.compensate path_taken points s4).2) = Xt2)
      (hc : (E.compensate path_taken points s4).1 = compensated)
      (hlog : (cycle E cfg mapping_online rate s).log =
        openLog t (t - cfg.real_time_delay) r
          ++ frameLog E (t - cfg.real_time_delay - d) (t - cfg.real_time_delay)
              points path_taken compensated Xt2
          ++ frameMapLog E (t - cfg.real_time_delay) compensated Xt2
          ++ closeLog cfg (t - cfg.real_time_delay) r)
      (hub : (cycle E cfg mapping_online rate s).ub = false)
  | offline (t : ℚ) (r : R) (d : ℚ) (pre post : List (Ev P S C X R))
      (hoff : mapping_online = false)
      (hr : (E.ready s).1 = true) (hf : E.BUFFER_I_front (E.ready s).2 = some t)
      (hrate : (E.refine_delta (t - cfg.real_time_delay) (E.ready s).2).1 = r)
      (hd : E.delta (E.refine_delta (t - cfg.real_time_delay) (E.ready s).2).2 = d)
      (hpre : (pre = [.map_exists false]
          ∧ (E.map_exists (E.refine_delta (t - cfg.real_time_delay) (E.ready s).2).2).1 = false)
        ∨ ((E.map_exists (E.refine_delta (t - cfg.real_time_delay) (E.ready s).2).2).1 = true
          ∧ ∃ points path_taken compensated Xt2 s4,
          E.latest_state (E.update compensated (E.compensate path_taken points s4).2) = Xt2
          ∧ (E.compensate path_taken points s4).1 = compensated
          ∧ pre = .map_exists true ::
            frameLog E (t - cfg.real_time_delay - d) (t - cfg.real_time_delay)
              points path_taken compensated Xt2))
      (hpost : post = [.hasToMap (t - cfg.real_time_delay) false]
        ∨ ∃ full_compensated x s1,
          (E.compensate_window (t - cfg.real_time_delay - cfg.full_rotation_time)
              (t - cfg.real_time_delay) s1).1 = full_compensated
          ∧ E.latest_state (E.compensate_window
              (t - cfg.real_time_delay - cfg.full_rotation_time)
              (t - cfg.real_time_delay) s1).2 = x
          ∧ post = batchLog E cfg (t - cfg.real_time_delay) full_compensated x)
      (hlog : (cycle E cfg mapping_online rate s).log =
        openLog t (t - cfg.real_time_delay) r ++ pre ++ post
          ++ closeLog cfg (t - cfg.real_time_delay) r)
      (hub : (cycle E cfg mapping_online rate s).ub = false)

/-! ## A small concrete engine -/

/-- State of a small engine used to run the driver on concrete inputs. -/
structure Toy where
  imu_front : Option ℚ
  npoints : Nat
  mapped : Bool
  due : Bool
  pose : Nat
  running : Bool
deriving DecidableEq

/-- A small engine: a window holds `npoints` points, registration needs at
least five of them and otherwise keeps the propagated pose. -/
def toy : Engine Toy Nat Nat Nat Nat Nat Nat ℚ where
  Publishers_new := id
  Accumulator_getInstance := id
  Compensator_new := fun _ s => s
  Mapper_getInstance := id
  Localizator_getInstance := id
  subscribe_lidar := fun _ s => s
  subscribe_imu := fun _ s => s
  Rate_new := fun r => (r : ℚ)
  ok := fun s => (s.running, s)
  ready := fun s => (s.imu_front.isSome, s)
  BUFFER_I_front := fun s => s.imu_front
  refine_delta := fun _ s => (40, s)
  delta := fun _ => 1 / 40
  map_exists := fun s => (s.mapped, s)
  propagate_to := fun _ s => s
  get_points := fun _ _ s => (s.npoints, s)
  integrate_imus := fun _ _ s => (0, s)
  compensate := fun _ points s => (points, s)
  update := fun cloud s => if cloud < 5 then s else { s with pose := s.pose + 1 }
  latest_state := fun s => s.pose
  BUFFER_X_push := fun _ s => s
  publish_state := fun _ _ s => s
  I_Rt_L := fun _ => 0
  mulXT := fun x t => x + t
  mulGC := fun g cloud => g + cloud
  publish_pointcloud := fun _ s => s
  map_add := fun _ _ _ s => { s with mapped := true }
  publish_full_pointcloud := fun _ s => s
  hasToMap := fun _ s => (s.due, s)
  compensate_window := fun _ _ s => (s.npoints + 100, s)
  empty_lidar := fun _ s => s
  spinOnce := id
  sleep := fun _ s => s

/-- The configuration loaded from a server on which nothing is configured. -/
def defaultParams : Params :=
  { delta := 1 / 40, rate := 40, ds_rate := 4, MAX_NUM_ITERS := 3, min_dist := 3,
    full_rotation_time := 1 / 10, empty_lidar_time := 20, real_time_delay := 1,
    points_topic := "/velodyne_points", imus_topic := "/vectornav/IMU" }

/-- A toy state: newest inertial sample at time 11, seven points per window. -/
def toyState (mapped due : Bool) : Toy :=
  { imu_front := some 11, npoints := 7, mapped := mapped, due := due, pose := 0,
    running := true }

/-- A toy state with only two points per window: too few to register. -/
def toyStarved : Toy :=
  { imu_front := some 11, npoints := 2, mapped := true, due := false, pose := 0,
    running := true }

/-- A toy state whose inertial buffer is empty, so that `ready()` is false. -/
def toyIdle : Toy :=
  { imu_front := none, npoints := 7, mapped := true, due := false, pose := 0,
    running := true }

/-- The binary64 value nearest to 0.025, the default processing period. -/
def period025 : ℚ := 3602879701896397 / 2 ^ 57

/-- The small engine with a given refined period `accum.delta`. -/
def toyWithPeriod (period : ℚ) : Engine Toy Nat Nat Nat Nat Nat Nat ℚ :=
  { toy with delta := fun _ => period }

/-- A toy state whose newest inertial sample carries a Unix-epoch timestamp. -/
def toyStamped : Toy :=
  { imu_front := some 1600000001, npoints := 7, mapped := true, due := false, pose := 0,
    running := true }

/-- A server on which only `MAX_NUM_ITERS` is configured, to zero. -/
def zeroItersServer : ParamServer :=
  { ParamServer.empty with MAX_NUM_ITERS := some 0 }

/-- A server with a zero iteration count and a negative period; the default
rate computed from that period is negative as well. -/
def invalidServer : ParamServer :=
  { ParamServer.empty with MAX_NUM_ITERS := some 0, delta := some (-1 / 40) }

/-- The configuration loaded from `invalidServer`. -/
def invalidParams : Params :=
  { defaultParams with MAX_NUM_ITERS := 0, delta := -1 / 40, rate := -40 }

end

/-! ## The log of one pass -/

section
variable {σ P S C X T G R : Type}

theorem cycle_not_ready (E : Engine σ P S C X T G R) (cfg : Params) (mapping_online : Bool)
    (rate : R) (s : σ) (h : (E.ready s).1 = false) :
    cycle E cfg mapping_online rate s =
      ⟨E.sleep rate (E.spinOnce (E.ready s).2), rate,
        [.ready false, .spinOnce, .sleep rate], false⟩ := by
  simp [cycle, h]

theorem cycle_front_empty (E : Engine σ P S C X T G R) (cfg : Params) (mapping_online : Bool)
    (rate : R) (s : σ) (h : (E.ready s).1 = true) (hf : E.BUFFER_I_front (E.ready s).2 = none) :
    cycle E cfg mapping_online rate s =
      ⟨(E.ready s).2, rate, [.ready true, .BUFFER_I_front none], true⟩ := by
  simp [cycle, h, hf]

theorem cycle_ready (E : Engine σ P S C X T G R) (cfg : Params) (mapping_online : Bool)
    (rate : R) (s : σ) (t : ℚ) (h : (E.ready s).1 = true)
    (hf : E.BUFFER_I_front (E.ready s).2 = some t) :
    (cycle E cfg mapping_online rate s).log =
      [.ready true, .BUFFER_I_front (some t),
        .refine_delta (t - cfg.real_time_delay)
          (E.refine_delta (t - cfg.real_time_delay) (E.ready s).2).1]
      ++ (gatedUpdate E mapping_online
            (t - cfg.real_time_delay
              - E.delta (E.refine_delta (t - cfg.real_time_delay) (E.ready s).2).2)
            (t - cfg.real_time_delay)
            (E.refine_delta (t - cfg.real_time_delay) (E.ready s).2).2).log
      ++ (offlineMap E cfg mapping_online (t - cfg.real_time_delay)
            (gatedUpdate E mapping_online
              (t - cfg.real_time_delay
                - E.delta (E.refine_delta (t - cfg.real_time_delay) (E.ready s).2).2)
              (t - cfg.real_time_delay)
              (E.refine_delta (t - cfg.real_time_delay) (E.ready s).2).2).st).log
      ++ [.empty_lidar (t - cfg.real_time_delay - cfg.empty_lidar_time), .spinOnce,
          .sleep (E.refine_delta (t - cfg.real_time_delay) (E.ready s).2).1]
    ∧ (cycle E cfg mapping_online rate s).ub = false
    ∧ (cycle E cfg mapping_online rate s).rate
        = (E.refine_delta (t - cfg.real_time_delay) (E.ready s).2).1 := by
  simp [cycle, h, hf]

theorem updatePath_log (E : Engine σ P S C X T G R) (mapping_online : Bool) (t1 t2 : ℚ)
    (s : σ) :
    ∃ points path_taken compensated Xt2 s4,
      (E.get_points t1 t2 (E.propagate_to t2 s)).1 = points
      ∧ (E.integrate_imus t1 t2 (E.get_points t1 t2 (E.propagate_to t2 s)).2).1 = path_taken
      ∧ (E.compensate path_taken points s4).1 = compensated
      ∧ E.latest_state (E.update compensated (E.compensate path_taken points s4).2) = Xt2
      ∧ (updatePath E mapping_online t1 t2 s).log =
          frameLog E t1 t2 points path_taken compensated Xt2
            ++ (if mapping_online then frameMapLog E t2 compensated Xt2 else []) := by
  refine ⟨_, _, _, _, (E.integrate_imus t1 t2 (E.get_points t1 t2 (E.propagate_to t2 s)).2).2,
    rfl, rfl, rfl, rfl, ?_⟩
  cases mapping_online <;> simp [updatePath, frameLog, frameMapLog]

/-- The three ways through the gate of line 66. -/
theorem gatedUpdate_log (E : Engine σ P S C X T G R) (mapping_online : Bool) (t1 t2 : ℚ)
    (s : σ) :
    (mapping_online = true ∧ ∃ points path_taken compensated Xt2 s4,
        E.latest_state (E.update compensated (E.compensate path_taken points s4).2) = Xt2
        ∧ (E.compensate path_taken points s4).1 = compensated
        ∧ (gatedUpdate E mapping_online t1 t2 s).log =
          frameLog E t1 t2 points path_taken compensated Xt2
            ++ frameMapLog E t2 compensated Xt2)
    ∨ (mapping_online = false ∧ (E.map_exists s).1 = true
        ∧ ∃ points path_taken compensated Xt2 s4,
        E.latest_state (E.update compensated (E.compensate path_taken points s4).2) = Xt2
        ∧ (E.compensate path_taken points s4).1 = compensated
        ∧ (gatedUpdate E mapping_online t1 t2 s).log =
          .map_exists true :: frameLog E t1 t2 points path_taken compensated Xt2)
    ∨ (mapping_online = false ∧ (E.map_exists s).1 = false
        ∧ (gatedUpdate E mapping_online t1 t2 s).log = [.map_exists false]) := by
  cases mapping_online
  · cases hx : (E.map_exists s).1
    · right; right; simp [gatedUpdate, hx]
    · right; left
      obtain ⟨p, q, c, x, s4, -, -, h3, h4, h5⟩ := updatePath_log E false t1 t2 (E.map_exists s).2
      exact ⟨rfl, rfl, p, q, c, x, s4, h4, h3, by simp [gatedUpdate, hx, h5]⟩
  · left
    obtain ⟨p, q, c, x, s4, -, -, h3, h4, h5⟩ := updatePath_log E true t1 t2 s
    exact ⟨rfl, p, q, c, x, s4, h4, h3, by simp [gatedUpdate, h5]⟩

/-- The three ways through lines 92-99. -/
theorem offlineMap_log (E : Engine σ P S C X T G R) (cfg : Params) (mapping_online : Bool)
    (t2 : ℚ) (s : σ) :
    (mapping_online = true ∧ (offlineMap E cfg mapping_online t2 s).log = [])
    ∨ (mapping_online = false ∧ (E.hasToMap t2 s).1 = false
        ∧ (offlineMap E cfg mapping_online t2 s).log = [.hasToMap t2 false])
    ∨ (mapping_online = false ∧ (E.hasToMap t2 s).1 = true ∧ ∃ full_compensated x s1,
        (E.compensate_window (t2 - cfg.full_rotation_time) t2 s1).1 = full_compensated
        ∧ E.latest_state (E.compensate_window (t2 - cfg.full_rotation_time) t2 s1).2 = x
        ∧ (offlineMap E cfg mapping_online t2 s).log = batchLog E cfg t2 full_compensated x) := by
  cases mapping_online
  · cases hx : (E.hasToMap t2 s).1
    · right; left; simp [offlineMap, hx]
    · right; right
      exact ⟨rfl, rfl, _, _, (E.hasToMap t2 s).2, rfl, rfl, by simp [offlineMap, hx, batchLog]⟩
  · left; simp [offlineMap]

/-- Every pass has one of the four shapes. -/
theorem cycle_shape (E : Engine σ P S C X T G R) (cfg : Params) (mapping_online : Bool)
    (rate : R) (s : σ) : Shape E cfg mapping_online rate s := by
  cases hr : (E.ready s).1
  · exact .notReady hr (by rw [cycle_not_ready E cfg mapping_online rate s hr])
      (by rw [cycle_not_ready E cfg mapping_online rate s hr])
  · cases hf : E.BUFFER_I_front (E.ready s).2 with
    | none =>
      exact .frontEmpty hr hf (by rw [cycle_front_empty E cfg mapping_online rate s hr hf])
        (by rw [cycle_front_empty E cfg mapping_online rate s hr hf])
    | some t =>
      obtain ⟨hlog, hub, -⟩ := cycle_ready E cfg mapping_online rate s t hr hf
      rcases gatedUpdate_log E mapping_online
          (t - cfg.real_time_delay
            - E.delta (E.refine_delta (t - cfg.real_time_delay) (E.ready s).2).2)
          (t - cfg.real_time_delay)
          (E.refine_delta (t - cfg.real_time_delay) (E.ready s).2).2 with
        ⟨hon, p, q, c, x, s4, hx, hc, hg⟩ | ⟨hoff, hex, p, q, c, x, s4, hx, hc, hg⟩
          | ⟨hoff, hex, hg⟩
      · rcases offlineMap_log E cfg mapping_online (t - cfg.real_time_delay)
          (gatedUpdate E mapping_online
            (t - cfg.real_time_delay
              - E.delta (E.refine_delta (t - cfg.real_time_delay) (E.ready s).2).2)
            (t - cfg.real_time_delay)
            (E.refine_delta (t - cfg.real_time_delay) (E.ready s).2).2).st with
          ⟨-, hm⟩ | ⟨hoff, -⟩ | ⟨hoff, -⟩
        · refine .online t _ _ p q c x s4 hon hr hf rfl rfl hx hc ?_ hub
          rw [hlog, hg, hm]
          simp [openLog, closeLog]
        · rw [hon] at hoff; cases hoff
        · rw [hon] at hoff; cases hoff
      · rcases offlineMap_log E cfg mapping_online (t - cfg.real_time_delay)
          (gatedUpdate E mapping_online
            (t - cfg.real_time_delay
              - E.delta (E.refine_delta (t - cfg.real_time_delay) (E.ready s).2).2)
            (t - cfg.real_time_delay)
            (E.refine_delta (t - cfg.real_time_delay) (E.ready s).2).2).st with
          ⟨hon, -⟩ | ⟨-, -, hm⟩ | ⟨-, -, fc, xb, s1, h1, h2, hm⟩
        · rw [hon] at hoff; cases hoff
        · refine .offline t _ _ _ _ hoff hr hf rfl rfl
            (Or.inr ⟨hex, p, q, c, x, s4, hx, hc, rfl⟩) (Or.inl rfl) ?_ hub
          rw [hlog, hg, hm]
          simp [openLog, closeLog]
        · refine .offline t _ _ _ _ hoff hr hf rfl rfl
            (Or.inr ⟨hex, p, q, c, x, s4, hx, hc, rfl⟩) (Or.inr ⟨fc, xb, s1, h1, h2, rfl⟩) ?_ hub
          rw [hlog, hg, hm]
          simp [openLog, closeLog]
      · rcases offlineMap_log E cfg mapping_online (t - cfg.real_time_delay)
          (gatedUpdate E mapping_online
            (t - cfg.real_time_delay
              - E.delta (E.refine_delta (t - cfg.real_time_delay) (E.ready s).2).2)
            (t - cfg.real_time_delay)
            (E.refine_delta (t - cfg.real_time_delay) (E.ready s).2).2).st with
          ⟨hon, -⟩ | ⟨-, -, hm⟩ | ⟨-, -, fc, xb, s1, h1, h2, hm⟩
        · rw [hon] at hoff; cases hoff
        · refine .offline t _ _ _ _ hoff hr hf rfl rfl
            (Or.inl ⟨rfl, hex⟩) (Or.inl rfl) ?_ hub
          rw [hlog, hg, hm]
          simp [openLog, closeLog]
        · refine .offline t _ _ _ _ hoff hr hf rfl rfl
            (Or.inl ⟨rfl, hex⟩) (Or.inr ⟨fc, xb, s1, h1, h2, rfl⟩) ?_ hub
          rw [hlog, hg, hm]
          simp [openLog, closeLog]

/-- Claim C9: a pass in which `accum.ready()` returns false makes no engine
call at all: its log is exactly `ready`, `ros::spinOnce`, `rate.sleep` with the
old rate, and the engine state is only changed by those.  In any pass
`BUFFER_I.front()` is read only after `ready()` returned true, so when a true
`ready()` implies a non-empty inertial buffer, neither a pass nor any number
of loop iterations ever reads the front of an empty buffer. -/
theorem C9_not_ready_is_noop (E : Engine σ P S C X T G R) (cfg : Params)
    (mapping_online : Bool) (rate : R) (s : σ) :
    ((E.ready s).1 = false →
      cycle E cfg mapping_online rate s =
        ⟨E.sleep rate (E.spinOnce (E.ready s).2), rate,
          [.ready false, .spinOnce, .sleep rate], false⟩)
    ∧ (Ev.ready false ∈ (cycle E cfg mapping_online rate s).log →
        (cycle E cfg mapping_online rate s).log = [.ready false, .spinOnce, .sleep rate]
        ∧ ∀ e ∈ (cycle E cfg mapping_online rate s).log, e.isEngineCall = false)
    ∧ (∀ time, Ev.BUFFER_I_front time ∈ (cycle E cfg mapping_online rate s).log →
        (E.ready s).1 = true ∧ Ev.ready true ∈ (cycle E cfg mapping_online rate s).log)
    ∧ ((∀ s0, (E.ready s0).1 = true → (E.BUFFER_I_front (E.ready s0).2).isSome = true) →
        (cycle E cfg mapping_online rate s).ub = false
        ∧ ∀ fuel, (loop E cfg mapping_online fuel rate s).ub = false) := by
  refine ⟨cycle_not_ready E cfg mapping_online rate s, ?_, ?_, ?_⟩
  · intro h
    cases hr : (E.ready s).1
    · simp [cycle_not_ready E cfg mapping_online rate s hr, Ev.isEngineCall]
    · cases hf : E.BUFFER_I_front (E.ready s).2 with
      | none => simp [cycle_front_empty E cfg mapping_online rate s hr hf] at h
      | some t =>
        exfalso
        rw [(cycle_ready E cfg mapping_online rate s t hr hf).1] at h
        cases mapping_online <;>
          simp only [gatedUpdate, offlineMap, updatePath] at h <;>
          split_ifs at h <;> simp at h
  · intro time h
    cases hr : (E.ready s).1
    · simp [cycle_not_ready E cfg mapping_online rate s hr] at h
    · refine ⟨rfl, ?_⟩
      cases hf : E.BUFFER_I_front (E.ready s).2 with
      | none => simp [cycle_front_empty E cfg mapping_online rate s hr hf]
      | some t => simp [(cycle_ready E cfg mapping_online rate s t hr hf).1]
  · intro hne
    have hc : ∀ (rate0 : R) (s0 : σ), (cycle E cfg mapping_online rate0 s0).ub = false := by
      intro rate0 s0
      cases hr : (E.ready s0).1
      · simp [cycle_not_ready E cfg mapping_online rate0 s0 hr]
      · have h1 := hne s0 hr
        cases hf : E.BUFFER_I_front (E.ready s0).2 with
        | none => simp [hf] at h1
        | some t => exact (cycle_ready E cfg mapping_online rate0 s0 t hr hf).2.1
    refine ⟨hc rate s, ?_⟩
    intro fuel
    induction fuel generalizing rate s with
    | zero => simp [loop]
    | succ n ih =>
      simp only [loop]
      split_ifs with h1 h2
      · simp [hc] at h2
      · exact ih _ _
      · rfl

/-- Claim C3: in online mode a ready pass that read a non-empty inertial
buffer has exactly the log below: `map.add` is called exactly once, with
`is_batch = false`, timestamp `t2`, and the cloud
`Xt2 * Xt2.I_Rt_L() * compensated`, the very value passed to
`publish.pointcloud` and `publish.full_pointcloud`; `map.hasToMap` is never
called and no `map.add` with `is_batch = true` occurs. -/
theorem C3_online_per_frame_insertion (E : Engine σ P S C X T G R) (cfg : Params)
    (rate : R) (s : σ) (t : ℚ) (hr : (E.ready s).1 = true)
    (hf : E.BUFFER_I_front (E.ready s).2 = some t) :
    (∃ r t1 points path_taken compensated Xt2 s4,
      (E.compensate path_taken points s4).1 = compensated
      ∧ E.latest_state (E.update compensated (E.compensate path_taken points s4).2) = Xt2
      ∧ (cycle E cfg true rate s).log =
        [.ready true, .BUFFER_I_front (some t), .refine_delta (t - cfg.real_time_delay) r,
         .propagate_to (t - cfg.real_time_delay),
         .get_points t1 (t - cfg.real_time_delay) points,
         .integrate_imus t1 (t - cfg.real_time_delay) path_taken,
         .compensate path_taken points compensated, .update compensated,
         .latest_state Xt2, .BUFFER_X_push Xt2, .publish_state Xt2 false,
         .publish_pointcloud (E.mulGC (E.mulXT Xt2 (E.I_Rt_L Xt2)) compensated),
         .map_add (E.mulGC (E.mulXT Xt2 (E.I_Rt_L Xt2)) compensated)
            (t - cfg.real_time_delay) false,
         .publish_full_pointcloud (E.mulGC (E.mulXT Xt2 (E.I_Rt_L Xt2)) compensated),
         .empty_lidar (t - cfg.real_time_delay - cfg.empty_lidar_time), .spinOnce, .sleep r])
    ∧ ((cycle E cfg true rate s).log.map Ev.op).count Op.map_add = 1
    ∧ (∀ e ∈ (cycle E cfg true rate s).log, e.op ≠ Op.hasToMap)
    ∧ (∀ cloud t0, Ev.map_add cloud t0 true ∉ (cycle E cfg true rate s).log) := by
  cases cycle_shape E cfg true rate s with
  | notReady hr0 hlog hub => rw [hr] at hr0; cases hr0
  | frontEmpty hr0 hf0 hlog hub => rw [hf] at hf0; cases hf0
  | online t0 r d p q c x s4 hon hr0 hf0 hrate hd hx hc hlog hub =>
    rw [hf] at hf0
    cases hf0
    refine ⟨⟨r, t - cfg.real_time_delay - d, p, q, c, x, s4, hc, hx, ?_⟩, ?_, ?_, ?_⟩ <;>
      simp [hlog, openLog, frameLog, frameMapLog, closeLog, Engine.globalize, Ev.op]
  | offline t0 r d pre post hoff hr0 hf0 hrate hd hpre hpost hlog hub => cases hoff

/-- Claim C6: in a ready pass that read a non-empty inertial buffer, in
either mapping mode and whether or not the update path was gated,
`accum.empty_lidar` is called exactly once, with cutoff
`t2 - empty_lidar_time`, and only `ros::spinOnce` and `rate.sleep` follow it,
so it comes after every extraction, compensation and map insertion of the
pass.  The only call `main` makes on `BUFFER_I` is the one read of its front.
When `empty_lidar_time` is at least `accum.delta` the cutoff is at most `t1`,
and when it is at least `full_rotation_time` the cutoff is at most
`t2 - full_rotation_time`: every extracted frame window and every batch window
of the pass starts at or after the cutoff. -/
theorem C6_pruning (E : Engine σ P S C X T G R) (cfg : Params) (mapping_online : Bool)
    (rate : R) (s : σ) (t : ℚ) (hr : (E.ready s).1 = true)
    (hf : E.BUFFER_I_front (E.ready s).2 = some t) :
    (∃ pre r, (cycle E cfg mapping_online rate s).log =
        pre ++ [.empty_lidar (t - cfg.real_time_delay - cfg.empty_lidar_time), .spinOnce,
          .sleep r]
      ∧ ∀ e ∈ pre, e.op ≠ Op.empty_lidar)
    ∧ ((cycle E cfg mapping_online rate s).log.map Ev.op).count Op.empty_lidar = 1
    ∧ (cycle E cfg mapping_online rate s).log.filter Ev.onBufferI = [.BUFFER_I_front (some t)]
    ∧ (E.delta (E.refine_delta (t - cfg.real_time_delay) (E.ready s).2).2
          ≤ cfg.empty_lidar_time →
        t - cfg.real_time_delay - cfg.empty_lidar_time ≤
          t - cfg.real_time_delay
            - E.delta (E.refine_delta (t - cfg.real_time_delay) (E.ready s).2).2
        ∧ ∀ t1 t2 points, Ev.get_points t1 t2 points ∈ (cycle E cfg mapping_online rate s).log →
            t - cfg.real_time_delay - cfg.empty_lidar_time ≤ t1)
    ∧ (cfg.full_rotation_time ≤ cfg.empty_lidar_time →
        t - cfg.real_time_delay - cfg.empty_lidar_time ≤
          t - cfg.real_time_delay - cfg.full_rotation_time
        ∧ ∀ t1 t2 cloud,
            Ev.compensate_window t1 t2 cloud ∈ (cycle E cfg mapping_online rate s).log →
            t - cfg.real_time_delay - cfg.empty_lidar_time ≤ t1) := by
  cases cycle_shape E cfg mapping_online rate s with
  | notReady hr0 hlog hub => rw [hr] at hr0; cases hr0
  | frontEmpty hr0 hf0 hlog hub => rw [hf] at hf0; cases hf0
  | online t0 r d p q c x s4 hon hr0 hf0 hrate hd hx hc hlog hub =>
    rw [hf] at hf0
    cases hf0
    rw [hd]
    refine ⟨⟨openLog t (t - cfg.real_time_delay) r
        ++ frameLog E (t - cfg.real_time_delay - d) (t - cfg.real_time_delay) p q c x
        ++ frameMapLog E (t - cfg.real_time_delay) c x, r, ?_, ?_⟩, ?_, ?_, ?_, ?_⟩
    · simp [hlog, closeLog]
    · simp [openLog, frameLog, frameMapLog, Ev.op]
    · simp [hlog, openLog, frameLog, frameMapLog, closeLog, Ev.op]
    · simp [hlog, openLog, frameLog, frameMapLog, closeLog, Ev.onBufferI, List.filter]
    · intro h
      refine ⟨by linarith, ?_⟩
      intro t1 t2 points hmem
      have h1 : t1 = t - cfg.real_time_delay - d := by
        simp [hlog, openLog, frameLog, frameMapLog, closeLog] at hmem
        exact hmem.1
      rw [h1]; linarith
    · intro h
      refine ⟨by linarith, ?_⟩
      intro t1 t2 cloud hmem
      simp [hlog, openLog, frameLog, frameMapLog, closeLog] at hmem
  | offline t0 r d pre post hoff hr0 hf0 hrate hd hpre hpost hlog hub =>
    rw [hf] at hf0
    cases hf0
    rw [hd]
    refine ⟨⟨openLog t (t - cfg.real_time_delay) r ++ pre ++ post, r, ?_, ?_⟩, ?_, ?_, ?_, ?_⟩
    · simp [hlog, closeLog]
    · rcases hpre with ⟨rfl, -⟩ | ⟨-, p, q, c, x, s4, -, -, rfl⟩ <;>
        rcases hpost with rfl | ⟨fc, xb, s1, -, -, rfl⟩ <;>
        simp [openLog, frameLog, batchLog, Ev.op]
    · rcases hpre with ⟨rfl, -⟩ | ⟨-, p, q, c, x, s4, -, -, rfl⟩ <;>
        rcases hpost with rfl | ⟨fc, xb, s1, -, -, rfl⟩ <;>
        simp [hlog, openLog, frameLog, batchLog, closeLog, Ev.op]
    · rcases hpre with ⟨rfl, -⟩ | ⟨-, p, q, c, x, s4, -, -, rfl⟩ <;>
        rcases hpost with rfl | ⟨fc, xb, s1, -, -, rfl⟩ <;>
        simp [hlog, openLog, frameLog, batchLog, closeLog, Ev.onBufferI, List.filter]
    · intro h
      refine ⟨by linarith, ?_⟩
      intro t1 t2 points hmem
      have h1 : t1 = t - cfg.real_time_delay - d := by
        rcases hpre with ⟨rfl, -⟩ | ⟨-, p, q, c, x, s4, -, -, rfl⟩ <;>
          rcases hpost with rfl | ⟨fc, xb, s1, -, -, rfl⟩ <;>
          simp [hlog, openLog, frameLog, batchLog, closeLog] at hmem <;>
          exact hmem.1
      rw [h1]; linarith
    · intro h
      refine ⟨by linarith, ?_⟩
      intro t1 t2 cloud hmem
      have h1 : t1 = t - cfg.real_time_delay - cfg.full_rotation_time := by
        rcases hpre with ⟨rfl, -⟩ | ⟨-, p, q, c, x, s4, -, -, rfl⟩ <;>
          rcases hpost with rfl | ⟨fc, xb, s1, -, -, rfl⟩ <;>
          simp [hlog, openLog, frameLog, batchLog, closeLog] at hmem <;>
          exact hmem.1
      rw [h1]; linarith

/-! ## The processing window in double precision -/

theorem log2Fuel_eq (fuel : Nat) : ∀ n, n ≤ fuel → log2Fuel fuel n = Nat.log 2 n := by
  induction fuel with
  | zero =>
    intro n hn
    have : n = 0 := by omega
    subst this
    simp [log2Fuel]
  | succ k ih =>
    intro n hn
    unfold log2Fuel
    split_ifs with h
    · rw [Nat.log_of_one_lt_of_le (by norm_num) h, ih (n / 2) (by omega)]
    · rw [Nat.log_of_lt (by omega)]

theorem clog2Fuel_eq (fuel : Nat) : ∀ n, n ≤ fuel → clog2Fuel fuel n = Nat.clog 2 n := by
  induction fuel with
  | zero =>
    intro n hn
    have : n = 0 := by omega
    subst this
    simp [clog2Fuel]
  | succ k ih =>
    intro n hn
    unfold clog2Fuel
    split_ifs with h
    · rw [Nat.clog_of_two_le (by norm_num) h, ih ((n + 1) / 2) (by omega)]
      rfl
    · rw [Nat.clog_of_right_le_one (by omega)]

theorem floorLog2_eq (r : ℚ) : floorLog2 r = Int.log 2 r := by
  unfold floorLog2 Int.log
  rw [log2Fuel_eq _ _ le_rfl, clog2Fuel_eq _ _ le_rfl]

theorem roundHalfEven_intCast (n : Int) : roundHalfEven (n : ℚ) = n := by
  simp [roundHalfEven]

theorem floor_le_roundHalfEven (r : ℚ) : Int.floor r ≤ roundHalfEven r := by
  unfold roundHalfEven
  simp only
  split_ifs <;> omega

theorem roundHalfEven_le_floor_succ (r : ℚ) : roundHalfEven r ≤ Int.floor r + 1 := by
  unfold roundHalfEven
  simp only
  split_ifs <;> omega

theorem roundHalfEven_mono {r s : ℚ} (h : r ≤ s) : roundHalfEven r ≤ roundHalfEven s := by
  have hfl : Int.floor r ≤ Int.floor s := Int.floor_mono h
  rcases lt_or_eq_of_le hfl with hlt | heq
  · calc roundHalfEven r ≤ Int.floor r + 1 := roundHalfEven_le_floor_succ r
      _ ≤ Int.floor s := hlt
      _ ≤ roundHalfEven s := floor_le_roundHalfEven s
  · unfold roundHalfEven
    simp only
    rw [heq]
    split_ifs <;> first | omega | (exfalso; linarith)

theorem abs_roundHalfEven_sub_le (r : ℚ) : |(roundHalfEven r : ℚ) - r| ≤ 1 / 2 := by
  have h1 : (Int.floor r : ℚ) ≤ r := Int.floor_le r
  have h2 : r < Int.floor r + 1 := Int.lt_floor_add_one r
  unfold roundHalfEven
  simp only
  rw [abs_le]
  split_ifs <;> push_cast <;> constructor <;> linarith

theorem two_zpow_pos (e : Int) : (0 : ℚ) < 2 ^ e := zpow_pos (by norm_num) e

theorem ulpExp_ge (q : ℚ) : -1074 ≤ ulpExp q := by
  unfold ulpExp
  have := le_max_right (floorLog2 q) (-1022)
  omega

theorem lt_two_zpow (q : ℚ) : q < 2 ^ (ulpExp q + 53) := by
  have h := Int.lt_zpow_succ_log_self (R := ℚ) (b := 2) (by norm_num) q
  rw [Nat.cast_ofNat] at h
  have hle : Int.log 2 q + 1 ≤ ulpExp q + 53 := by
    rw [ulpExp, floorLog2_eq]
    have := le_max_left (Int.log 2 q) (-1022)
    omega
  exact lt_of_lt_of_le h (zpow_le_zpow_right₀ (by norm_num) hle)

theorem two_zpow_le (q : ℚ) (hq : 0 < q) (he : -1074 < ulpExp q) :
    2 ^ (ulpExp q + 52) ≤ q := by
  have h := Int.zpow_log_le_self (R := ℚ) (b := 2) (by norm_num) hq
  rw [Nat.cast_ofNat] at h
  have heq : ulpExp q + 52 = Int.log 2 q := by
    rw [ulpExp, floorLog2_eq] at he ⊢
    rcases max_cases (Int.log 2 q) (-1022) with ⟨h1, _⟩ | ⟨h1, _⟩ <;> rw [h1] at he ⊢ <;> omega
  rw [heq]
  exact h

theorem ulpExp_mono {x y : ℚ} (hx : 0 < x) (h : x ≤ y) : ulpExp x ≤ ulpExp y := by
  unfold ulpExp
  rw [floorLog2_eq, floorLog2_eq]
  have := max_le_max (Int.log_mono_right (b := 2) hx h) (le_refl (-1022 : Int))
  omega

theorem ulpExp_eq_of_bounds (y : ℚ) (e : Int) (hy : 0 < y) (hlt : y < 2 ^ (e + 53))
    (he : -1074 ≤ e) (hge : e = -1074 ∨ 2 ^ (e + 52) ≤ y) : ulpExp y = e := by
  have h1 : Int.log 2 y < e + 53 := by
    rw [← Int.lt_zpow_iff_log_lt (R := ℚ) (b := 2) (by norm_num) hy, Nat.cast_ofNat]
    exact hlt
  unfold ulpExp
  rw [floorLog2_eq]
  rcases hge with h2 | h2
  · rcases max_cases (Int.log 2 y) (-1022) with ⟨h3, _⟩ | ⟨h3, _⟩ <;> rw [h3] <;> omega
  · have h4 : e + 52 ≤ Int.log 2 y := by
      rw [← Int.zpow_le_iff_le_log (R := ℚ) (b := 2) (by norm_num) hy, Nat.cast_ofNat]
      exact h2
    rcases max_cases (Int.log 2 y) (-1022) with ⟨h3, _⟩ | ⟨h3, _⟩ <;> rw [h3] <;> omega

theorem roundMag_zero : roundMag 0 = 0 := by
  simp [roundMag, roundHalfEven]

theorem roundMag_nonneg {q : ℚ} (hq : 0 ≤ q) : 0 ≤ roundMag q := by
  unfold roundMag
  have h0 : (0 : ℚ) ≤ q / 2 ^ ulpExp q := div_nonneg hq (le_of_lt (two_zpow_pos _))
  have h1 : (0 : Int) ≤ roundHalfEven (q / 2 ^ ulpExp q) := by
    have := roundHalfEven_mono h0
    rwa [show ((0 : ℚ)) = ((0 : Int) : ℚ) by norm_num, roundHalfEven_intCast] at this
  have h2 : (0 : ℚ) ≤ (roundHalfEven (q / 2 ^ ulpExp q) : ℚ) := by exact_mod_cast h1
  exact mul_nonneg h2 (le_of_lt (two_zpow_pos _))

theorem roundHalfEven_le_of_le {r : ℚ} {n : Int} (h : r ≤ n) : roundHalfEven r ≤ n := by
  have := roundHalfEven_mono h
  rwa [roundHalfEven_intCast] at this

theorem le_roundHalfEven_of_le {r : ℚ} {n : Int} (h : (n : ℚ) ≤ r) : n ≤ roundHalfEven r := by
  have := roundHalfEven_mono h
  rwa [roundHalfEven_intCast] at this

theorem roundHalfEven_scaled_le (q : ℚ) :
    roundHalfEven (q / 2 ^ ulpExp q) ≤ 2 ^ 53 := by
  apply roundHalfEven_le_of_le
  rw [div_le_iff₀ (two_zpow_pos _)]
  have h := lt_two_zpow q
  rw [add_comm, zpow_add₀ (by norm_num)] at h
  push_cast
  have : ((2 : ℚ) ^ (53 : Int)) = 2 ^ 53 := by norm_cast
  rw [this] at h
  exact le_of_lt h

theorem le_roundHalfEven_scaled (q : ℚ) (hq : 0 < q) (he : -1074 < ulpExp q) :
    2 ^ 52 ≤ roundHalfEven (q / 2 ^ ulpExp q) := by
  apply le_roundHalfEven_of_le
  rw [le_div_iff₀ (two_zpow_pos _)]
  have h := two_zpow_le q hq he
  rw [add_comm, zpow_add₀ (by norm_num)] at h
  push_cast
  have : ((2 : ℚ) ^ (52 : Int)) = 2 ^ 52 := by norm_cast
  rw [this] at h
  exact h

theorem roundMag_le_pow (q : ℚ) : roundMag q ≤ 2 ^ (ulpExp q + 53) := by
  unfold roundMag
  have h1 : ((roundHalfEven (q / 2 ^ ulpExp q) : Int) : ℚ) ≤ 2 ^ 53 := by
    exact_mod_cast roundHalfEven_scaled_le q
  rw [add_comm, zpow_add₀ (by norm_num)]
  have : ((2 : ℚ) ^ (53 : Int)) = 2 ^ 53 := by norm_cast
  rw [this]
  exact mul_le_mul_of_nonneg_right h1 (le_of_lt (two_zpow_pos _))

theorem pow_le_roundMag (q : ℚ) (hq : 0 < q) (he : -1074 < ulpExp q) :
    2 ^ (ulpExp q + 52) ≤ roundMag q := by
  unfold roundMag
  have h1 : (2 ^ 52 : ℚ) ≤ ((roundHalfEven (q / 2 ^ ulpExp q) : Int) : ℚ) := by
    exact_mod_cast le_roundHalfEven_scaled q hq he
  rw [add_comm, zpow_add₀ (by norm_num)]
  have : ((2 : ℚ) ^ (52 : Int)) = 2 ^ 52 := by norm_cast
  rw [this]
  exact mul_le_mul_of_nonneg_right h1 (le_of_lt (two_zpow_pos _))

theorem roundMag_mono {x y : ℚ} (hx : 0 ≤ x) (h : x ≤ y) : roundMag x ≤ roundMag y := by
  rcases eq_or_lt_of_le hx with h0 | hpos
  · rw [← h0, roundMag_zero]
    exact roundMag_nonneg (le_trans hx h)
  · have hy : 0 < y := lt_of_lt_of_le hpos h
    rcases eq_or_lt_of_le (ulpExp_mono hpos h) with heq | hlt
    · unfold roundMag
      rw [heq]
      have h1 : x / 2 ^ ulpExp y ≤ y / 2 ^ ulpExp y :=
        div_le_div_of_nonneg_right h (le_of_lt (two_zpow_pos _))
      have h2 : ((roundHalfEven (x / 2 ^ ulpExp y) : Int) : ℚ)
          ≤ ((roundHalfEven (y / 2 ^ ulpExp y) : Int) : ℚ) := by
        exact_mod_cast roundHalfEven_mono h1
      exact mul_le_mul_of_nonneg_right h2 (le_of_lt (two_zpow_pos _))
    · have hey : -1074 < ulpExp y := lt_of_le_of_lt (ulpExp_ge x) hlt
      calc roundMag x ≤ 2 ^ (ulpExp x + 53) := roundMag_le_pow x
        _ ≤ 2 ^ (ulpExp y + 52) := zpow_le_zpow_right₀ (by norm_num) (by omega)
        _ ≤ roundMag y := pow_le_roundMag y hy hey

theorem roundMag_of_scaled_int (y : ℚ) (n : Int) (h : y = n * 2 ^ ulpExp y) :
    roundMag y = y := by
  unfold roundMag
  have h1 : y / 2 ^ ulpExp y = n := by
    rw [div_eq_iff (ne_of_gt (two_zpow_pos _))]
    exact h
  rw [h1, roundHalfEven_intCast]
  exact h.symm

theorem roundMag_idem {q : ℚ} (hq : 0 ≤ q) : roundMag (roundMag q) = roundMag q := by
  rcases eq_or_lt_of_le hq with h0 | hpos
  · rw [← h0, roundMag_zero, roundMag_zero]
  · have hm0 : 0 ≤ roundMag q := roundMag_nonneg hq
    rcases eq_or_lt_of_le hm0 with hz | hmpos
    · rw [← hz, roundMag_zero]
    · have hle : roundHalfEven (q / 2 ^ ulpExp q) ≤ 2 ^ 53 := roundHalfEven_scaled_le q
      rcases eq_or_lt_of_le hle with htop | hlt
      · have hy : roundMag q = 2 ^ (ulpExp q + 1 + 52) := by
          unfold roundMag
          rw [htop]
          push_cast
          rw [show ulpExp q + 1 + 52 = 53 + ulpExp q by ring, zpow_add₀ (by norm_num)]
          norm_cast
        have hexp : ulpExp (roundMag q) = ulpExp q + 1 := by
          apply ulpExp_eq_of_bounds _ _ hmpos
          · rw [hy]
            exact zpow_lt_zpow_right₀ (by norm_num) (by omega)
          · have := ulpExp_ge q
            omega
          · right
            rw [hy]
        apply roundMag_of_scaled_int _ (2 ^ 52)
        rw [hexp]
        rw [hy, show ulpExp q + 1 + 52 = 52 + (ulpExp q + 1) by ring, zpow_add₀ (by norm_num)]
        norm_cast
      · have hexp : ulpExp (roundMag q) = ulpExp q := by
          apply ulpExp_eq_of_bounds _ _ hmpos
          · unfold roundMag
            rw [add_comm, zpow_add₀ (by norm_num)]
            have h1 : ((roundHalfEven (q / 2 ^ ulpExp q) : Int) : ℚ) < 2 ^ (53 : Int) := by
              have : ((roundHalfEven (q / 2 ^ ulpExp q) : Int) : ℚ) < ((2 ^ 53 : Int) : ℚ) := by
                exact_mod_cast hlt
              push_cast at this
              exact_mod_cast this
            exact mul_lt_mul_of_pos_right h1 (two_zpow_pos _)
          · exact ulpExp_ge q
          · rcases eq_or_lt_of_le (ulpExp_ge q) with h1 | h1
            · left; exact h1.symm
            · right; exact pow_le_roundMag q hpos h1
        apply roundMag_of_scaled_int _ (roundHalfEven (q / 2 ^ ulpExp q))
        rw [hexp]
        rfl

theorem abs_roundMag_sub_le (q : ℚ) : |roundMag q - q| ≤ 2 ^ ulpExp q / 2 := by
  have hp := two_zpow_pos (ulpExp q)
  have h := abs_roundHalfEven_sub_le (q / 2 ^ ulpExp q)
  have heq : roundMag q - q
      = ((roundHalfEven (q / 2 ^ ulpExp q) : ℚ) - q / 2 ^ ulpExp q) * 2 ^ ulpExp q := by
    unfold roundMag
    field_simp
  rw [heq, abs_mul, abs_of_pos hp]
  calc |(roundHalfEven (q / 2 ^ ulpExp q) : ℚ) - q / 2 ^ ulpExp q| * 2 ^ ulpExp q
      ≤ 1 / 2 * 2 ^ ulpExp q := mul_le_mul_of_nonneg_right h (le_of_lt hp)
    _ = 2 ^ ulpExp q / 2 := by ring

theorem roundDouble_mono {x y : ℚ} (h : x ≤ y) : roundDouble x ≤ roundDouble y := by
  unfold roundDouble
  split_ifs with hx hy hy
  · exact roundMag_mono hx h
  · exact absurd (le_trans hx h) hy
  · have h1 : 0 ≤ roundMag (-x) := roundMag_nonneg (by linarith)
    have h2 : 0 ≤ roundMag y := roundMag_nonneg hy
    linarith
  · have h1 : roundMag (-y) ≤ roundMag (-x) := roundMag_mono (by linarith) (by linarith)
    linarith

theorem roundDouble_idem (q : ℚ) : roundDouble (roundDouble q) = roundDouble q := by
  by_cases hq : 0 ≤ q
  · have h1 : roundDouble q = roundMag q := by simp [roundDouble, hq]
    rw [h1]
    have h2 : 0 ≤ roundMag q := roundMag_nonneg hq
    simp only [roundDouble, h2, if_true]
    exact roundMag_idem hq
  · have hneg : 0 ≤ -q := by linarith
    have h1 : roundDouble q = -roundMag (-q) := by simp [roundDouble, hq]
    rw [h1]
    have h2 : 0 ≤ roundMag (-q) := roundMag_nonneg hneg
    rcases eq_or_lt_of_le h2 with h0 | hpos
    · rw [← h0]
      simp [roundDouble, roundMag_zero]
    · have h3 : ¬ (0 ≤ -roundMag (-q)) := by linarith
      simp only [roundDouble, h3, if_false, neg_neg]
      rw [roundMag_idem hneg]

theorem abs_roundDouble_sub_le (q : ℚ) : |roundDouble q - q| ≤ 2 ^ ulpExp |q| / 2 := by
  unfold roundDouble
  split_ifs with hq
  · rw [abs_of_nonneg hq]
    exact abs_roundMag_sub_le q
  · have hneg : q < 0 := lt_of_not_le hq
    rw [abs_of_neg hneg]
    have h := abs_roundMag_sub_le (-q)
    have heq : -roundMag (-q) - q = -(roundMag (-q) - -q) := by ring
    rw [heq, abs_neg]
    exact h

theorem dsub_le_self_of_nonneg (a b d : ℚ) (hd : 0 ≤ d) : dsub (dsub a b) d ≤ dsub a b := by
  have h : dsub a b - d ≤ dsub a b := by linarith
  calc dsub (dsub a b) d = roundDouble (dsub a b - d) := rfl
    _ ≤ roundDouble (dsub a b) := roundDouble_mono h
    _ = dsub a b := roundDouble_idem (a - b)

theorem cycleD_ready (E : Engine σ P S C X T G R) (cfg : Params) (mapping_online : Bool)
    (rate : R) (s : σ) (t : ℚ) (h : (E.ready s).1 = true)
    (hf : E.BUFFER_I_front (E.ready s).2 = some t) :
    (cycleD E cfg mapping_online rate s).log =
      [.ready true, .BUFFER_I_front (some t),
        .refine_delta (dsub t cfg.real_time_delay)
          (E.refine_delta (dsub t cfg.real_time_delay) (E.ready s).2).1]
      ++ (gatedUpdate E mapping_online
            (dsub (dsub t cfg.real_time_delay)
              (E.delta (E.refine_delta (dsub t cfg.real_time_delay) (E.ready s).2).2))
            (dsub t cfg.real_time_delay)
            (E.refine_delta (dsub t cfg.real_time_delay) (E.ready s).2).2).log
      ++ (offlineMapD E cfg mapping_online (dsub t cfg.real_time_delay)
            (gatedUpdate E mapping_online
              (dsub (dsub t cfg.real_time_delay)
                (E.delta (E.refine_delta (dsub t cfg.real_time_delay) (E.ready s).2).2))
              (dsub t cfg.real_time_delay)
              (E.refine_delta (dsub t cfg.real_time_delay) (E.ready s).2).2).st).log
      ++ [.empty_lidar (dsub (dsub t cfg.real_time_delay) cfg.empty_lidar_time), .spinOnce,
          .sleep (E.refine_delta (dsub t cfg.real_time_delay) (E.ready s).2).1]
    ∧ (cycleD E cfg mapping_online rate s).ub = false
    ∧ (cycleD E cfg mapping_online rate s).rate
        = (E.refine_delta (dsub t cfg.real_time_delay) (E.ready s).2).1 := by
  simp [cycleD, h, hf]

/-- The three ways through lines 92-99, in double precision. -/
theorem offlineMapD_log (E : Engine σ P S C X T G R) (cfg : Params) (mapping_online : Bool)
    (t2 : ℚ) (s : σ) :
    (offlineMapD E cfg mapping_online t2 s).log = []
    ∨ (offlineMapD E cfg mapping_online t2 s).log = [.hasToMap t2 false]
    ∨ ∃ full_compensated x,
        (offlineMapD E cfg mapping_online t2 s).log =
          [.hasToMap t2 true,
            .compensate_window (dsub t2 cfg.full_rotation_time) t2 full_compensated,
            .latest_state x, .latest_state x,
            .map_add (E.globalize x full_compensated) t2 true,
            .publish_full_pointcloud (E.globalize x full_compensated)] := by
  cases mapping_online
  · cases hx : (E.hasToMap t2 s).1
    · right; left; simp [offlineMapD, hx]
    · right; right
      exact ⟨(E.compensate_window (dsub t2 cfg.full_rotation_time) t2 (E.hasToMap t2 s).2).1,
        E.latest_state
          (E.compensate_window (dsub t2 cfg.full_rotation_time) t2 (E.hasToMap t2 s).2).2,
        by simp [offlineMapD, hx]⟩
  · left; simp [offlineMapD]

/-- Claim C8, as amended: in a ready pass that read a non-empty inertial
buffer with front time `t`, the pass opens with `ready`, the read of the front
and `refine_delta(t2)`, where `t2` is the double `t - real_time_delay`; every
window handed to `get_points` and `integrate_imus` is `(t1, t2)`, where `t1` is
the double `t2 - accum.delta` and `accum.delta` is read after `refine_delta(t2)`
has run, and a processed pass does extract that window; `t2 - t1` equals that
refined period up to the rounding of the one subtraction (at most half a unit
in the last place of `t2 - accum.delta`, and nothing when that difference is
itself a double), and `t1 <= t2` when the refined period is non-negative; the
configured `Config.delta` plays no part in the pass; the rate kept for later
passes and slept on at the end of this one is the rate returned by
`refine_delta(t2)`. -/
theorem C8_processing_window (E : Engine σ P S C X T G R) (cfg : Params)
    (mapping_online : Bool) (rate : R) (s : σ) (t t2 t1 : ℚ)
    (hr : (E.ready s).1 = true)
    (hf : E.BUFFER_I_front (E.ready s).2 = some t)
    (ht2 : t2 = dsub t cfg.real_time_delay)
    (ht1 : t1 = dsub t2 (E.delta (E.refine_delta t2 (E.ready s).2).2)) :
    (cycleD E cfg mapping_online rate s).log.take 3 =
        [.ready true, .BUFFER_I_front (some t),
          .refine_delta t2 (E.refine_delta t2 (E.ready s).2).1]
    ∧ (∀ a b points, Ev.get_points a b points ∈ (cycleD E cfg mapping_online rate s).log →
        a = t1 ∧ b = t2)
    ∧ (∀ a b path, Ev.integrate_imus a b path ∈ (cycleD E cfg mapping_online rate s).log →
        a = t1 ∧ b = t2)
    ∧ ((mapping_online = true
          ∨ Ev.map_exists true ∈ (cycleD E cfg mapping_online rate s).log) →
        ∃ points path,
          Ev.get_points t1 t2 points ∈ (cycleD E cfg mapping_online rate s).log
          ∧ Ev.integrate_imus t1 t2 path ∈ (cycleD E cfg mapping_online rate s).log)
    ∧ (roundDouble t2 = t2 ∧ roundDouble t1 = t1)
    ∧ (|(t2 - t1) - E.delta (E.refine_delta t2 (E.ready s).2).2|
        ≤ 2 ^ ulpExp |t2 - E.delta (E.refine_delta t2 (E.ready s).2).2| / 2)
    ∧ (roundDouble (t2 - E.delta (E.refine_delta t2 (E.ready s).2).2)
          = t2 - E.delta (E.refine_delta t2 (E.ready s).2).2 →
        t2 - t1 = E.delta (E.refine_delta t2 (E.ready s).2).2)
    ∧ (0 ≤ E.delta (E.refine_delta t2 (E.ready s).2).2 → t1 ≤ t2)
    ∧ (∀ d, cycleD E { cfg with delta := d } mapping_online rate s
        = cycleD E cfg mapping_online rate s)
    ∧ (cycleD E cfg mapping_online rate s).rate = (E.refine_delta t2 (E.ready s).2).1
    ∧ (cycleD E cfg mapping_online rate s).log.getLast?
        = some (.sleep (E.refine_delta t2 (E.ready s).2).1) := by
  subst ht2
  subst ht1
  obtain ⟨hlog, -, hrate⟩ := cycleD_ready E cfg mapping_online rate s t hr hf
  have hlogs :
      (cycleD E cfg mapping_online rate s).log.take 3 =
        [.ready true, .BUFFER_I_front (some t),
          .refine_delta (dsub t cfg.real_time_delay)
            (E.refine_delta (dsub t cfg.real_time_delay) (E.ready s).2).1]
      ∧ (∀ a b points, Ev.get_points a b points ∈ (cycleD E cfg mapping_online rate s).log →
          a = dsub (dsub t cfg.real_time_delay)
              (E.delta (E.refine_delta (dsub t cfg.real_time_delay) (E.ready s).2).2)
          ∧ b = dsub t cfg.real_time_delay)
      ∧ (∀ a b path, Ev.integrate_imus a b path ∈ (cycleD E cfg mapping_online rate s).log →
          a = dsub (dsub t cfg.real_time_delay)
              (E.delta (E.refine_delta (dsub t cfg.real_time_delay) (E.ready s).2).2)
          ∧ b = dsub t cfg.real_time_delay)
      ∧ ((mapping_online = true
            ∨ Ev.map_exists true ∈ (cycleD E cfg mapping_online rate s).log) →
          ∃ points path,
            Ev.get_points
                (dsub (dsub t cfg.real_time_delay)
                  (E.delta (E.refine_delta (dsub t cfg.real_time_delay) (E.ready s).2).2))
                (dsub t cfg.real_time_delay) points
              ∈ (cycleD E cfg mapping_online rate s).log
            ∧ Ev.integrate_imus
                (dsub (dsub t cfg.real_time_delay)
                  (E.delta (E.refine_delta (dsub t cfg.real_time_delay) (E.ready s).2).2))
                (dsub t cfg.real_time_delay) path
              ∈ (cycleD E cfg mapping_online rate s).log)
      ∧ (cycleD E cfg mapping_online rate s).log.getLast?
          = some (.sleep (E.refine_delta (dsub t cfg.real_time_delay) (E.ready s).2).1) := by
    rw [hlog]
    rcases gatedUpdate_log E mapping_online
        (dsub (dsub t cfg.real_time_delay)
          (E.delta (E.refine_delta (dsub t cfg.real_time_delay) (E.ready s).2).2))
        (dsub t cfg.real_time_delay)
        (E.refine_delta (dsub t cfg.real_time_delay) (E.ready s).2).2 with
      ⟨hm, p, q, c, x, s4, -, -, hg⟩ | ⟨hm, -, p, q, c, x, s4, -, -, hg⟩ | ⟨hm, -, hg⟩ <;>
    rcases offlineMapD_log E cfg mapping_online (dsub t cfg.real_time_delay)
        (gatedUpdate E mapping_online
          (dsub (dsub t cfg.real_time_delay)
            (E.delta (E.refine_delta (dsub t cfg.real_time_delay) (E.ready s).2).2))
          (dsub t cfg.real_time_delay)
          (E.refine_delta (dsub t cfg.real_time_delay) (E.ready s).2).2).st with
      ho | ho | ⟨fc, xb, ho⟩ <;>
    rw [hg, ho] <;>
    simp +contextual [frameLog, frameMapLog, hm]
  obtain ⟨h1, h2, h3, h4, h5⟩ := hlogs
  refine ⟨h1, h2, h3, h4, ⟨roundDouble_idem _, roundDouble_idem _⟩, ?_, ?_, ?_,
    fun d => rfl, hrate, h5⟩
  · have h := abs_roundDouble_sub_le
      (dsub t cfg.real_time_delay
        - E.delta (E.refine_delta (dsub t cfg.real_time_delay) (E.ready s).2).2)
    have heq : dsub t cfg.real_time_delay
          - dsub (dsub t cfg.real_time_delay)
              (E.delta (E.refine_delta (dsub t cfg.real_time_delay) (E.ready s).2).2)
          - E.delta (E.refine_delta (dsub t cfg.real_time_delay) (E.ready s).2).2
        = -(roundDouble (dsub t cfg.real_time_delay
              - E.delta (E.refine_delta (dsub t cfg.real_time_delay) (E.ready s).2).2)
            - (dsub t cfg.real_time_delay
              - E.delta (E.refine_delta (dsub t cfg.real_time_delay) (E.ready s).2).2)) := by
      simp only [dsub]
      ring
    rw [heq, abs_neg]
    exact h
  · intro hrep
    have : dsub (dsub t cfg.real_time_delay)
          (E.delta (E.refine_delta (dsub t cfg.real_time_delay) (E.ready s).2).2)
        = dsub t cfg.real_time_delay
          - E.delta (E.refine_delta (dsub t cfg.real_time_delay) (E.ready s).2).2 := hrep
    rw [this]
    ring
  · intro hd
    exact dsub_le_self_of_nonneg _ _ _ hd

/-- Claim C7, as amended: in a processed pass (ready, non-empty inertial
buffer, and `mapping_online` or `map.exists()` true) the log holds the segment
`propagate_to(t2)`, `get_points(t1, t2)`, `integrate_imus(t1, t2)`,
`compensate(path, points)`, `update(compensated)`, `latest_state()`,
`BUFFER_X.push(Xt2)`, `publish.state(Xt2, false)`,
`publish.pointcloud(Xt2 * Xt2.I_Rt_L() * compensated)` in that order over one
pair `(t1, t2)`: the cloud updated on is the compensation of the extracted
points along the integrated path, `Xt2` is the state read after that update,
and in online mode the same global cloud is then added to the map.  Outside
the segment none of these calls occurs again, except `latest_state`: no call
of it precedes the segment, and it is called three times in the pass when
`hasToMap(t2)` returned true and once otherwise. -/
theorem C7_one_way_data_flow (E : Engine σ P S C X T G R) (cfg : Params)
    (mapping_online : Bool) (rate : R) (s : σ) (t : ℚ) (hr : (E.ready s).1 = true)
    (hf : E.BUFFER_I_front (E.ready s).2 = some t)
    (hp : mapping_online = true
      ∨ Ev.map_exists true ∈ (cycle E cfg mapping_online rate s).log) :
    (∃ pre post t1 points path_taken compensated Xt2 s4,
      (E.compensate path_taken points s4).1 = compensated
      ∧ E.latest_state (E.update compensated (E.compensate path_taken points s4).2) = Xt2
      ∧ (cycle E cfg mapping_online rate s).log =
          pre ++ [.propagate_to (t - cfg.real_time_delay),
            .get_points t1 (t - cfg.real_time_delay) points,
            .integrate_imus t1 (t - cfg.real_time_delay) path_taken,
            .compensate path_taken points compensated, .update compensated,
            .latest_state Xt2, .BUFFER_X_push Xt2, .publish_state Xt2 false,
            .publish_pointcloud (E.mulGC (E.mulXT Xt2 (E.I_Rt_L Xt2)) compensated)] ++ post
      ∧ (∀ e ∈ pre ++ post, e.op ∉ [Op.propagate_to, Op.get_points, Op.integrate_imus,
          Op.compensate, Op.update, Op.BUFFER_X_push, Op.publish_state,
          Op.publish_pointcloud])
      ∧ (∀ e ∈ pre, e.op ≠ Op.latest_state)
      ∧ (mapping_online = true → ∃ r, post =
          [.map_add (E.mulGC (E.mulXT Xt2 (E.I_Rt_L Xt2)) compensated)
              (t - cfg.real_time_delay) false,
            .publish_full_pointcloud (E.mulGC (E.mulXT Xt2 (E.I_Rt_L Xt2)) compensated),
            .empty_lidar (t - cfg.real_time_delay - cfg.empty_lidar_time), .spinOnce,
            .sleep r]))
    ∧ ((∃ t2, Ev.hasToMap t2 true ∈ (cycle E cfg mapping_online rate s).log) →
        ((cycle E cfg mapping_online rate s).log.map Ev.op).count Op.latest_state = 3)
    ∧ ((¬ ∃ t2, Ev.hasToMap t2 true ∈ (cycle E cfg mapping_online rate s).log) →
        ((cycle E cfg mapping_online rate s).log.map Ev.op).count Op.latest_state = 1) := by
  cases cycle_shape E cfg mapping_online rate s with
  | notReady hr0 hlog hub => rw [hr] at hr0; cases hr0
  | frontEmpty hr0 hf0 hlog hub => rw [hf] at hf0; cases hf0
  | online t0 r d p q c x s4 hon hr0 hf0 hrate hd hx hc hlog hub =>
    rw [hf] at hf0
    cases hf0
    refine ⟨⟨openLog t (t - cfg.real_time_delay) r,
      frameMapLog E (t - cfg.real_time_delay) c x ++ closeLog cfg (t - cfg.real_time_delay) r,
      t - cfg.real_time_delay - d, p, q, c, x, s4, hc, hx, ?_, ?_, ?_, ?_⟩, ?_, ?_⟩
    · simp [hlog, openLog, frameLog, frameMapLog, closeLog, Engine.globalize]
    · simp [openLog, frameMapLog, closeLog, Ev.op]
    · simp [openLog, Ev.op]
    · intro _
      exact ⟨r, by simp [frameMapLog, closeLog, Engine.globalize]⟩
    · simp [hlog, openLog, frameLog, frameMapLog, closeLog]
    · simp [hlog, openLog, frameLog, frameMapLog, closeLog, Ev.op]
  | offline t0 r d pre post hoff hr0 hf0 hrate hd hpre hpost hlog hub =>
    rw [hf] at hf0
    cases hf0
    rcases hpre with ⟨rfl, -⟩ | ⟨-, p, q, c, x, s4, hx, hc, rfl⟩
    · exfalso
      rcases hp with hp | hp
      · rw [hoff] at hp; cases hp
      · rcases hpost with rfl | ⟨fc, xb, s1, -, -, rfl⟩ <;>
          simp [hlog, openLog, batchLog, closeLog] at hp
    · refine ⟨⟨openLog t (t - cfg.real_time_delay) r ++ [.map_exists true],
        post ++ closeLog cfg (t - cfg.real_time_delay) r,
        t - cfg.real_time_delay - d, p, q, c, x, s4, hc, hx, ?_, ?_, ?_, ?_⟩, ?_, ?_⟩
      · simp [hlog, openLog, frameLog, closeLog, Engine.globalize]
      · rcases hpost with rfl | ⟨fc, xb, s1, -, -, rfl⟩ <;>
          simp [openLog, batchLog, closeLog, Ev.op]
      · simp [openLog, Ev.op]
      · intro h; rw [hoff] at h; cases h
      · rcases hpost with rfl | ⟨fc, xb, s1, -, -, rfl⟩ <;>
          simp [hlog, openLog, frameLog, batchLog, closeLog, Ev.op]
      · rcases hpost with rfl | ⟨fc, xb, s1, -, -, rfl⟩ <;>
          simp [hlog, openLog, frameLog, batchLog, closeLog, Ev.op]

/-- Claim C5, as amended: every `publish.state` call of a pass carries the
constant flag `false`, whatever `KF.update` did; and in a processed pass the
pose published is the value `KF.latest_state()` returned right after
`KF.update`, the same value that was pushed to `BUFFER_X`, and it is published
exactly once. -/
theorem C5_pose_flag (E : Engine σ P S C X T G R) (cfg : Params)
    (mapping_online : Bool) (rate : R) (s : σ) :
    (∀ x flag, Ev.publish_state x flag ∈ (cycle E cfg mapping_online rate s).log →
        flag = false)
    ∧ (Ev.ready true ∈ (cycle E cfg mapping_online rate s).log →
        (cycle E cfg mapping_online rate s).ub = false →
        (mapping_online = true
          ∨ Ev.map_exists true ∈ (cycle E cfg mapping_online rate s).log) →
        ∃ pre post cloud s4 Xt2,
          E.latest_state (E.update cloud s4) = Xt2
          ∧ (cycle E cfg mapping_online rate s).log =
              pre ++ [.update cloud, .latest_state Xt2, .BUFFER_X_push Xt2,
                .publish_state Xt2 false] ++ post
          ∧ ∀ e ∈ pre ++ post, e.op ≠ Op.publish_state ∧ e.op ≠ Op.update) := by
  cases cycle_shape E cfg mapping_online rate s with
  | notReady hr0 hlog hub => simp [hlog]
  | frontEmpty hr0 hf0 hlog hub => simp [hlog, hub]
  | online t r d p q c x s4 hon hr hf hrate hd hx hc hlog hub =>
    refine ⟨by simp +contextual [hlog, openLog, frameLog, frameMapLog, closeLog], ?_⟩
    intro _ _ _
    refine ⟨openLog t (t - cfg.real_time_delay) r ++
        [.propagate_to (t - cfg.real_time_delay),
          .get_points (t - cfg.real_time_delay - d) (t - cfg.real_time_delay) p,
          .integrate_imus (t - cfg.real_time_delay - d) (t - cfg.real_time_delay) q,
          .compensate q p c],
      .publish_pointcloud (E.globalize x c) ::
        (frameMapLog E (t - cfg.real_time_delay) c x
          ++ closeLog cfg (t - cfg.real_time_delay) r),
      c, (E.compensate q p s4).2, x, hx, ?_, ?_⟩
    · simp [hlog, openLog, frameLog, frameMapLog, closeLog]
    · simp [openLog, frameMapLog, closeLog, Ev.op]
  | offline t r d pre post hoff hr hf hrate hd hpre hpost hlog hub =>
    subst hoff
    rcases hpre with ⟨rfl, -⟩ | ⟨-, p, q, c, x, s4, hx, hc, rfl⟩
    · rcases hpost with rfl | ⟨fc, xb, s1, -, -, rfl⟩ <;>
        simp [hlog, openLog, batchLog, closeLog]
    · refine ⟨?_, ?_⟩
      · rcases hpost with rfl | ⟨fc, xb, s1, -, -, rfl⟩ <;>
          simp +contextual [hlog, openLog, frameLog, batchLog, closeLog]
      · intro _ _ _
        refine ⟨openLog t (t - cfg.real_time_delay) r ++
            [.map_exists true, .propagate_to (t - cfg.real_time_delay),
              .get_points (t - cfg.real_time_delay - d) (t - cfg.real_time_delay) p,
              .integrate_imus (t - cfg.real_time_delay - d) (t - cfg.real_time_delay) q,
              .compensate q p c],
          .publish_pointcloud (E.globalize x c) ::
            (post ++ closeLog cfg (t - cfg.real_time_delay) r),
          c, (E.compensate q p s4).2, x, hx, ?_, ?_⟩
        · simp [hlog, openLog, frameLog, closeLog]
        · rcases hpost with rfl | ⟨fc, xb, s1, -, -, rfl⟩ <;>
            simp [openLog, batchLog, closeLog, Ev.op]

end

/-! ## Startup and the default rate -/

theorem toInt_of_nonneg (q : ℚ) (h0 : 0 ≤ q) (hfit : Int.floor q ≤ INT_MAX) :
    toInt q = some (Int.floor q) := by
  have h1 : (0 : Int) ≤ Int.floor q := Int.floor_nonneg.mpr h0
  have h2 : INT_MIN ≤ Int.floor q := by
    have : INT_MIN ≤ 0 := by decide
    omega
  simp [toInt, h0, h2, hfit]

theorem toInt_eq_some (q : ℚ) (z : Int) (h : toInt q = some z) :
    z = (if 0 ≤ q then Int.floor q else Int.ceil q) ∧ INT_MIN ≤ z ∧ z ≤ INT_MAX := by
  unfold toInt at h
  simp only at h
  split_ifs at h with h1 h2 h2
  · cases h; simp [h1, h2.1, h2.2]
  · cases h; simp [h1, h2.1, h2.2]

theorem defaultRate_default : defaultRate (1 / 40) = some 40 := by
  have h0 : (0 : ℚ) ≤ 1 / (1 / 40) := by norm_num
  have hf : Int.floor ((1 : ℚ) / (1 / 40)) = 40 := by
    rw [Int.floor_eq_iff]; norm_num
  have : defaultRate (1 / 40) = toInt (1 / (1 / 40)) := by
    simp [defaultRate]
  rw [this, toInt_of_nonneg _ h0 (by rw [hf]; decide), hf]

theorem loadParams_of_defaultRate (ps : ParamServer) (d : Int)
    (h : defaultRate (param ps.delta (1 / 40)) = some d) :
    ∃ cfg mapping_online, loadParams ps = some (cfg, mapping_online)
      ∧ cfg.delta = param ps.delta (1 / 40) ∧ cfg.rate = param ps.rate d := by
  unfold loadParams
  simp only [h]
  exact ⟨_, _, rfl, rfl, rfl⟩

section
variable {σ P S C X T G R : Type}

/-- A loop that finds `ros::ok()` true starts its pass with `accum.ready()`. -/
theorem loop_head (E : Engine σ P S C X T G R) (cfg : Params) (mapping_online : Bool)
    (fuel : Nat) (rate : R) (s : σ) (hok : (E.ok s).1 = true) :
    ∃ tail, (loop E cfg mapping_online (fuel + 1) rate s).log =
      .ok true :: .ready (E.ready (E.ok s).2).1 :: tail := by
  have hhead : ∃ rest, (cycle E cfg mapping_online rate (E.ok s).2).log
        = .ready (E.ready (E.ok s).2).1 :: rest := by
    cases cycle_shape E cfg mapping_online rate (E.ok s).2 with
    | notReady hr hlog hub => exact ⟨_, by rw [hlog, hr]⟩
    | frontEmpty hr hf hlog hub => exact ⟨_, by rw [hlog, hr]⟩
    | online t r d p q c x s4 hon hr hf hrate hd hx hc hlog hub =>
      exact ⟨_, by rw [hlog, hr]; rfl⟩
    | offline t r d pre post hoff hr hf hrate hd hpre hpost hlog hub =>
      exact ⟨_, by rw [hlog, hr]; rfl⟩
  obtain ⟨rest, hrest⟩ := hhead
  simp only [loop, hok, if_true]
  split_ifs
  · exact ⟨rest, by rw [hrest]⟩
  · exact ⟨_, by rw [hrest]; rfl⟩

/-- Claim C4, as amended: `main` checks no configuration value.  Whenever the
parameters load, whatever `MAX_NUM_ITERS`, `delta` and `rate` are, `main`
constructs the objects, subscribes, builds the rate object and tests
`ros::ok()`; when that returns true the first pass of the loop runs and calls
`accum.ready()`.  The loaded `MAX_NUM_ITERS` and `delta` are the configured
values as they stand. -/
theorem C4_no_startup_validation (E : Engine σ P S C X T G R) (ps : ParamServer)
    (cfg : Params) (mapping_online : Bool) (fuel : Nat) (s : σ)
    (hload : loadParams ps = some (cfg, mapping_online))
    (hok : (E.ok (startup E cfg s).st).1 = true) :
    cfg.MAX_NUM_ITERS = param ps.MAX_NUM_ITERS 3
    ∧ cfg.delta = param ps.delta (1 / 40)
    ∧ (main E ps (fuel + 1) s).log.take 10 =
        [.Publishers_new, .Accumulator_getInstance, .Compensator_new cfg.delta,
          .Mapper_getInstance, .Localizator_getInstance, .subscribe_lidar cfg.points_topic,
          .subscribe_imu cfg.imus_topic, .Rate_new cfg.rate (E.Rate_new cfg.rate),
          .ok true, .ready (E.ready (E.ok (startup E cfg s).st).2).1]
    ∧ Ev.ready (E.ready (E.ok (startup E cfg s).st).2).1 ∈ (main E ps (fuel + 1) s).log := by
  have hcfg : cfg.MAX_NUM_ITERS = param ps.MAX_NUM_ITERS 3
      ∧ cfg.delta = param ps.delta (1 / 40) := by
    unfold loadParams at hload
    simp only at hload
    split at hload
    · cases hload
    · cases hload; exact ⟨rfl, rfl⟩
  have hmain : ∃ tail, (main E ps (fuel + 1) s).log =
      [.Publishers_new, .Accumulator_getInstance, .Compensator_new cfg.delta,
        .Mapper_getInstance, .Localizator_getInstance, .subscribe_lidar cfg.points_topic,
        .subscribe_imu cfg.imus_topic, .Rate_new cfg.rate (E.Rate_new cfg.rate),
        .ok true, .ready (E.ready (E.ok (startup E cfg s).st).2).1] ++ tail := by
    obtain ⟨tail, ht⟩ := loop_head E cfg mapping_online fuel (E.Rate_new cfg.rate)
      (startup E cfg s).st hok
    simp only [main, hload]
    rw [ht]
    exact ⟨tail, rfl⟩
  obtain ⟨tail, htail⟩ := hmain
  refine ⟨hcfg.1, hcfg.2, ?_, ?_⟩
  · rw [htail]; simp
  · rw [htail]; simp

end

/-- Claim C10, as amended: for every `delta > 0` the default rate, when the
quotient fits a 32-bit `int`, is `floor(1/delta)`, and it is what `Config.rate`
holds when `rate` is not configured and `delta` is; a default rate that is
defined is always that floor and satisfies `rate * delta <= 1`; any
`delta > 1` gives 0; and with nothing configured `delta` is 1/40 and the rate
is 40. -/
theorem C10_default_rate (delta : ℚ) (hpos : 0 < delta) :
    (Int.floor (1 / delta) ≤ INT_MAX →
      defaultRate delta = some (Int.floor (1 / delta))
      ∧ ∀ ps : ParamServer, ps.delta = some delta → ps.rate = none →
          ∃ cfg mapping_online, loadParams ps = some (cfg, mapping_online)
            ∧ cfg.delta = delta ∧ cfg.rate = Int.floor (1 / delta))
    ∧ (∀ r, defaultRate delta = some r →
        r = Int.floor (1 / delta) ∧ (r : ℚ) * delta ≤ 1)
    ∧ (1 < delta → defaultRate delta = some 0)
    ∧ (loadParams ParamServer.empty).map (fun c => (c.1.delta, c.1.rate))
        = some (1 / 40, 40) := by
  have hne : delta ≠ 0 := ne_of_gt hpos
  have hq : (0 : ℚ) ≤ 1 / delta := by positivity
  have hdef : defaultRate delta = toInt (1 / delta) := by
    simp [defaultRate, hne]
  refine ⟨?_, ?_, ?_, ?_⟩
  · intro hfit
    have h1 : defaultRate delta = some (Int.floor (1 / delta)) := by
      rw [hdef]; exact toInt_of_nonneg _ hq hfit
    refine ⟨h1, ?_⟩
    intro ps hd hrate
    have h2 : defaultRate (param ps.delta (1 / 40)) = some (Int.floor (1 / delta)) := by
      rw [hd]; exact h1
    obtain ⟨cfg, mo, hl, hdl, hrt⟩ := loadParams_of_defaultRate ps _ h2
    refine ⟨cfg, mo, hl, ?_, ?_⟩
    · rw [hdl, hd]; rfl
    · rw [hrt, hrate]; rfl
  · intro r hr
    rw [hdef] at hr
    have h := (toInt_eq_some _ _ hr).1
    rw [if_pos hq] at h
    refine ⟨h, ?_⟩
    rw [h]
    have h2 : ((Int.floor (1 / delta) : Int) : ℚ) ≤ 1 / delta := Int.floor_le _
    calc ((Int.floor (1 / delta) : Int) : ℚ) * delta ≤ (1 / delta) * delta :=
          mul_le_mul_of_nonneg_right h2 (le_of_lt hpos)
      _ = 1 := by field_simp
  · intro h1
    have hlt : 1 / delta < 1 := by
      rw [div_lt_one hpos]; exact h1
    have hfl : Int.floor (1 / delta) = 0 := by
      rw [Int.floor_eq_iff]
      constructor
      · simpa using hq
      · simpa using hlt
    rw [hdef, toInt_of_nonneg _ hq (by rw [hfl]; decide), hfl]
  · have h40 : defaultRate (1 / 40) = some 40 := defaultRate_default
    obtain ⟨cfg, mo, hl, hdl, hrt⟩ := loadParams_of_defaultRate ParamServer.empty 40 h40
    rw [hl]
    show some (cfg.delta, cfg.rate) = some (1 / 40, 40)
    rw [hdl, hrt]
    rfl

/-! ## Concrete runs -/

/-- Counterexample to claim C4 as stated: with `MAX_NUM_ITERS` configured to
zero the parameters load, and the first pass of the loop calls
`accum.ready()`, `KF.propagate_to`, `KF.update` and `map.add`. -/
theorem C4_counterexample :
    (loadParams zeroItersServer).map (fun c => c.1.MAX_NUM_ITERS) = some 0
    ∧ Ev.ready true ∈ (main toy zeroItersServer 1 (toyState true true)).log
    ∧ Ev.propagate_to 10 ∈ (main toy zeroItersServer 1 (toyState true true)).log
    ∧ Ev.update 7 ∈ (main toy zeroItersServer 1 (toyState true true)).log
    ∧ Ev.map_add 8 10 false ∈ (main toy zeroItersServer 1 (toyState true true)).log := by
  decide!

/-- Counterexample to claim C5 as stated: in the starved run `KF.update`
leaves the estimator as it was (prediction only), in the other run it changes
the pose, and both passes publish the state with the same flag, `false`. -/
theorem C5_counterexample :
    (Ev.update 2 ∈ (cycle toy defaultParams true 40 toyStarved).log
      ∧ toy.update 2 toyStarved = toyStarved)
    ∧ (Ev.update 7 ∈ (cycle toy defaultParams true 40 (toyState true false)).log
      ∧ toy.latest_state (toy.update 7 (toyState true false))
          ≠ toy.latest_state (toyState true false))
    ∧ publishedFlags (cycle toy defaultParams true 40 toyStarved).log = [false]
    ∧ publishedFlags (cycle toy defaultParams true 40 (toyState true false)).log = [false] := by
  decide!

/-- Counterexample to claim C7 as stated: an offline processed pass in which
`hasToMap(t2)` is true calls `KF.latest_state()` three times, not once. -/
theorem C7_counterexample :
    Ev.ready true ∈ (cycle toy defaultParams false 40 (toyState true true)).log
    ∧ Ev.map_exists true ∈ (cycle toy defaultParams false 40 (toyState true true)).log
    ∧ (cycle toy defaultParams false 40 (toyState true true)).ub = false
    ∧ ((cycle toy defaultParams false 40 (toyState true true)).log.map Ev.op).count
        Op.latest_state = 3 := by
  decide!

/-- Counterexample to claim C10 as stated: for the positive period `2^-31`
the quotient `1/delta` is `2^31`, which no 32-bit `int` holds, so the default
rate is not `floor(1/delta)`. -/
theorem C10_counterexample :
    (0 : ℚ) < 1 / 2147483648
    ∧ Int.floor ((1 : ℚ) / (1 / 2147483648)) = 2147483648
    ∧ defaultRate (1 / 2147483648) = none
    ∧ defaultRate (1 / 2147483648) ≠ some (Int.floor ((1 : ℚ) / (1 / 2147483648))) := by
  decide!

/-- Claim C3 on a concrete online pass. -/
theorem C3_witness :
    (toy.ready (toyState true true)).1 = true
    ∧ toy.BUFFER_I_front (toy.ready (toyState true true)).2 = some 11
    ∧ ((cycle toy defaultParams true 40 (toyState true true)).log.map Ev.op).count
        Op.map_add = 1 :=
  ⟨rfl, rfl,
    (C3_online_per_frame_insertion toy defaultParams 40 (toyState true true) 11 rfl rfl).2.1⟩

/-- Claim C4, as amended, on a configuration with a zero iteration count, a
negative period and a negative rate. -/
theorem C4_witness :
    loadParams invalidServer = some (invalidParams, true)
    ∧ (toy.ok (startup toy invalidParams (toyState true true)).st).1 = true
    ∧ Ev.ready (toy.ready (toy.ok (startup toy invalidParams (toyState true true)).st).2).1
        ∈ (main toy invalidServer (0 + 1) (toyState true true)).log :=
  ⟨by decide!, rfl,
    (C4_no_startup_validation toy invalidServer invalidParams true 0 (toyState true true)
      (by decide!) rfl).2.2.2⟩

/-- Claim C5, as amended, on a concrete offline processed pass. -/
theorem C5_witness :
    Ev.ready true ∈ (cycle toy defaultParams false 40 (toyState true false)).log
    ∧ ∃ pre post cloud s4 Xt2,
        toy.latest_state (toy.update cloud s4) = Xt2
        ∧ (cycle toy defaultParams false 40 (toyState true false)).log =
            pre ++ [.update cloud, .latest_state Xt2, .BUFFER_X_push Xt2,
              .publish_state Xt2 false] ++ post
        ∧ ∀ e ∈ pre ++ post, e.op ≠ Op.publish_state ∧ e.op ≠ Op.update :=
  ⟨by decide!,
    (C5_pose_flag toy defaultParams false 40 (toyState true false)).2
      (by decide!) (by decide!) (Or.inr (by decide!))⟩

/-- Claim C6 on a concrete offline pass with a batch insertion. -/
theorem C6_witness :
    ((cycle toy defaultParams false 40 (toyState true true)).log.map Ev.op).count
        Op.empty_lidar = 1
    ∧ (cycle toy defaultParams false 40 (toyState true true)).log.filter Ev.onBufferI
        = [.BUFFER_I_front (some 11)]
    ∧ (11 : ℚ) - defaultParams.real_time_delay - defaultParams.empty_lidar_time
        ≤ 11 - defaultParams.real_time_delay - defaultParams.full_rotation_time :=
  ⟨(C6_pruning toy defaultParams false 40 (toyState true true) 11 rfl rfl).2.1,
   (C6_pruning toy defaultParams false 40 (toyState true true) 11 rfl rfl).2.2.1,
   ((C6_pruning toy defaultParams false 40 (toyState true true) 11 rfl rfl).2.2.2.2
      (by decide!)).1⟩

/-- Claim C7, as amended, on a concrete offline processed pass with a batch
insertion. -/
theorem C7_witness :
    Ev.map_exists true ∈ (cycle toy defaultParams false 40 (toyState true true)).log
    ∧ ((cycle toy defaultParams false 40 (toyState true true)).log.map Ev.op).count
        Op.latest_state = 3 :=
  ⟨by decide!,
    (C7_one_way_data_flow toy defaultParams false 40 (toyState true true) 11 rfl rfl
      (Or.inr (by decide!))).2.1 ⟨10, by decide!⟩⟩

/-- Counterexample to claim C8 as stated: the newest inertial sample is at
1600000001 s, the delay is 1 s and the refined period is the double nearest to
0.025 s.  The window handed to `get_points` ends at `t2 = 1600000000` and
starts at `t1 = 1599999999 + 4089446 / 2^22`, so `t2 - t1` is not the refined
period (it is about 95 ns longer). -/
theorem C8_counterexample :
    ((toyWithPeriod period025).ready toyStamped).1 = true
    ∧ (toyWithPeriod period025).BUFFER_I_front toyStamped = some 1600000001
    ∧ (toyWithPeriod period025).delta toyStamped = period025
    ∧ roundDouble period025 = period025
    ∧ 0 ≤ period025
    ∧ Ev.get_points (1599999999 + 4089446 / 4194304) 1600000000 7
        ∈ (cycleD (toyWithPeriod period025) defaultParams true 40 toyStamped).log
    ∧ (1600000000 : ℚ) - (1599999999 + 4089446 / 4194304) ≠ period025
    ∧ (1600000000 : ℚ) - (1599999999 + 4089446 / 4194304) - period025
        = 13743895347 / 2 ^ 57 := by
  decide!

/-- Claim C8, as amended, on the same concrete pass. -/
theorem C8_witness :
    (cycleD (toyWithPeriod period025) defaultParams true 40 toyStamped).log.take 3 =
        [.ready true, .BUFFER_I_front (some 1600000001),
          .refine_delta (dsub 1600000001 defaultParams.real_time_delay)
            ((toyWithPeriod period025).refine_delta
              (dsub 1600000001 defaultParams.real_time_delay)
              ((toyWithPeriod period025).ready toyStamped).2).1]
    ∧ dsub (dsub 1600000001 defaultParams.real_time_delay)
          ((toyWithPeriod period025).delta
            ((toyWithPeriod period025).refine_delta
              (dsub 1600000001 defaultParams.real_time_delay)
              ((toyWithPeriod period025).ready toyStamped).2).2)
        ≤ dsub 1600000001 defaultParams.real_time_delay :=
  ⟨(C8_processing_window (toyWithPeriod period025) defaultParams true 40 toyStamped
      1600000001 _ _ rfl rfl rfl rfl).1,
   (C8_processing_window (toyWithPeriod period025) defaultParams true 40 toyStamped
      1600000001 _ _ rfl rfl rfl rfl).2.2.2.2.2.2.2.1 (by decide!)⟩

/-- Claim C9 on a concrete idle pass and on three iterations of the loop. -/
theorem C9_witness :
    cycle toy defaultParams true 40 toyIdle =
        ⟨toy.sleep 40 (toy.spinOnce (toy.ready toyIdle).2), 40,
          [.ready false, .spinOnce, .sleep 40], false⟩
    ∧ (loop toy defaultParams true 3 40 (toyState true true)).ub = false :=
  ⟨(C9_not_ready_is_noop toy defaultParams true 40 toyIdle).1 rfl,
   ((C9_not_ready_is_noop toy defaultParams true 40 (toyState true true)).2.2.2
      (fun _ h => h)).2 3⟩

/-- Claim C10, as amended, at the default period 1/40 and at the period 2. -/
theorem C10_witness :
    defaultRate (1 / 40) = some (Int.floor ((1 : ℚ) / (1 / 40)))
    ∧ defaultRate 2 = some 0 :=
  ⟨((C10_default_rate (1 / 40) (by norm_num)).1 (by decide!)).1,
   (C10_default_rate 2 (by norm_num)).2.2.1 (by norm_num)⟩

end LimoVelo
